import Mathlib

/-!
# Brackets native filesystem bridge (`src/win/cefclient/brackets_extensions.cpp`)

A shallow embedding of `BracketsExtensionHandler` and theorems about it.

* A `std::string` and a `std::wstring` are both Lean `String`s; one `Char` stands for one
  code unit (8 bits in a narrow string, 16 bits in a wide one).
* The operating system is a record `Os σ` of the API functions the handler calls, over an
  arbitrary state type `σ`.  Every call takes the state and returns the next one, so a
  handler that leaves the state of every `Os` unchanged has made no call.
* A handler returns its `int` error code, the value it assigned to `retval` (if any) and the
  state of the operating system after its calls.
-/

namespace Brackets

/-! ## Error values (lines 10-21) and the host constants the file uses -/

/-- `NO_ERROR` of `WinError.h`; the file's own definition (line 12) is commented out. -/
def NO_ERROR : Int := 0
def ERR_UNKNOWN : Int := 1
def ERR_INVALID_PARAMS : Int := 2
def ERR_NOT_FOUND : Int := 3
def ERR_CANT_READ : Int := 4
def ERR_UNSUPPORTED_ENCODING : Int := 5
def ERR_CANT_WRITE : Int := 6
def ERR_OUT_OF_SPACE : Int := 7
def ERR_NOT_FILE : Int := 8
def ERR_NOT_DIRECTORY : Int := 9

/-- `ERROR_FILE_NOT_FOUND` of `WinError.h`. -/
def ERROR_FILE_NOT_FOUND : Int := 2
/-- `ERROR_PATH_NOT_FOUND` of `WinError.h`. -/
def ERROR_PATH_NOT_FOUND : Int := 3
/-- `ERROR_ACCESS_DENIED` of `WinError.h`. -/
def ERROR_ACCESS_DENIED : Int := 5
/-- `ERROR_WRITE_PROTECT` of `WinError.h`. -/
def ERROR_WRITE_PROTECT : Int := 19
/-- `ERROR_HANDLE_DISK_FULL` of `WinError.h`, the disk-full code the table names. -/
def ERROR_HANDLE_DISK_FULL : Int := 39
/-- `ENOENT` of `errno.h`. -/
def ENOENT : Int := 2
/-- `EINVAL` of `errno.h`. -/
def EINVAL : Int := 22
/-- `INVALID_FILE_ATTRIBUTES` of `WinBase.h`, `(DWORD)-1`. -/
def INVALID_FILE_ATTRIBUTES : Nat := 0xFFFFFFFF
/-- `FILE_ATTRIBUTE_DIRECTORY` of `WinNT.h`. -/
def FILE_ATTRIBUTE_DIRECTORY : Nat := 0x10
/-- Width in bits of `size_t` and of `DWORD` in the 32-bit Windows build. -/
def WORD_BITS : Nat := 32

/-- Conversion of a `DWORD` to `int`, as in `ConvertWinErrorCode(GetLastError())`. -/
def dwordToInt (d : Nat) : Int :=
  if d % 2 ^ WORD_BITS < 2 ^ (WORD_BITS - 1) then (d % 2 ^ WORD_BITS : Nat)
  else ((d % 2 ^ WORD_BITS : Nat) : Int) - 2 ^ WORD_BITS

/-! ## Error translation tables (lines 556-591) -/

/-- `ConvertErrnoCode` (line 558): the `switch` over `errno.h` codes.  The flag defaults to
`true` in the source and is not read. -/
def ConvertErrnoCode (errorCode : Int) (_isReading : Bool) : Int :=
  if errorCode = NO_ERROR then NO_ERROR
  else if errorCode = EINVAL then ERR_INVALID_PARAMS
  else if errorCode = ENOENT then ERR_NOT_FOUND
  else ERR_UNKNOWN

/-- `ConvertWinErrorCode` (line 574): the `switch` over `WinError.h` codes.  The flag
defaults to `true` in the source; callers that omit it pass `true` here. -/
def ConvertWinErrorCode (errorCode : Int) (isReading : Bool) : Int :=
  if errorCode = NO_ERROR then NO_ERROR
  else if errorCode = ERROR_PATH_NOT_FOUND ∨ errorCode = ERROR_FILE_NOT_FOUND then ERR_NOT_FOUND
  else if errorCode = ERROR_ACCESS_DENIED then
    (if isReading then ERR_CANT_READ else ERR_CANT_WRITE)
  else if errorCode = ERROR_WRITE_PROTECT then ERR_CANT_WRITE
  else if errorCode = ERROR_HANDLE_DISK_FULL then ERR_OUT_OF_SPACE
  else ERR_UNKNOWN

/-! ## Strings (lines 510-554) -/

/-- The terminator of a C string. -/
def NUL : Char := Char.ofNat 0

/-- What a reader of `s.c_str()` as a C string sees: the code units before the first
terminator. -/
def c_str (s : String) : String := String.mk (s.data.takeWhile (fun c => c != NUL))

/-- `FixFilename` (line 510): every `/` becomes `\`. -/
def FixFilename (filename : String) : String :=
  String.mk (filename.data.map (fun c => if c = '/' then '\\' else c))

/-- Conversion of one `char` to `wchar_t`; `char` is signed in this build, so the values
128..255 are sign-extended to 0xFF80..0xFFFF. -/
def widen (c : Char) : Char :=
  if c.toNat % 256 < 128 then Char.ofNat (c.toNat % 256)
  else Char.ofNat (0xFF00 + c.toNat % 256)

/-- Conversion of one `wchar_t` to `char`: the low eight bits. -/
def narrow (c : Char) : Char := Char.ofNat (c.toNat % 256)

/-- `StringToWString` (line 519): a wide string of the same length, filled by `std::copy`. -/
def StringToWString (s : String) : String := String.mk (s.data.map widen)

/-- `WStringToString` (line 526): a narrow string of the same length, filled by `std::copy`. -/
def WStringToString (s : String) : String := String.mk (s.data.map narrow)

/-- The text one character of the input adds to the result of `EscapeJSONString`
(the `switch` of lines 538-552). -/
def escapeChar (c : Char) : String :=
  if c = Char.ofNat 7 then "\\a"
  else if c = Char.ofNat 8 then "\\b"
  else if c = Char.ofNat 12 then "\\f"
  else if c = '\n' then "\\n"
  else if c = '\r' then "\\r"
  else if c = '\t' then "\\t"
  else if c = Char.ofNat 11 then "\\v"
  else if c = '"' then "\\\""
  else if c = '\\' then "/"
  else String.singleton c

/-- `EscapeJSONString` (line 534): the loop appends `escapeChar` of each character. -/
def EscapeJSONString (str : String) : String :=
  str.data.foldl (fun result c => result ++ escapeChar c) ""

/-- The index `pathStr.length() - 1` in `size_t` arithmetic (line 452). -/
def lastIndex (pathStr : String) : Nat :=
  (pathStr.length + (2 ^ WORD_BITS - 1)) % 2 ^ WORD_BITS

/-- Lines 452-453: when the character at `lastIndex` is a backslash it is overwritten with
the terminator.  The length stays what it was.  At an index outside the string the access
touches none of the string's characters, which therefore stay as they are. -/
def stripTrailingSeparator (pathStr : String) : String :=
  if pathStr.data.get? (lastIndex pathStr) = some '\\' then
    String.mk (pathStr.data.set (lastIndex pathStr) NUL)
  else pathStr

/-! ## Script values -/

/-- The kinds of value the scripting engine can pass. -/
inductive Kind where
  | undefined | null | bool | int | double | date | string | object | array | function
  deriving DecidableEq, Repr

/-- A `CefV8Value` argument: its kind and what each accessor of the host library returns
for it (the library converts a value of another kind as it sees fit). -/
structure CefV8Value where
  kind : Kind
  boolValue : Bool
  intValue : Int
  stringValue : String
  deriving DecidableEq, Repr

namespace CefV8Value

def IsBool (v : CefV8Value) : Bool := v.kind = Kind.bool
def IsInt (v : CefV8Value) : Bool := v.kind = Kind.int
def IsString (v : CefV8Value) : Bool := v.kind = Kind.string
def GetBoolValue (v : CefV8Value) : Bool := v.boolValue
def GetIntValue (v : CefV8Value) : Int := v.intValue
def GetStringValue (v : CefV8Value) : String := v.stringValue

/-- A script string. -/
def ofString (s : String) : CefV8Value := ⟨Kind.string, !s.isEmpty, 0, s⟩
/-- A script boolean. -/
def ofBool (b : Bool) : CefV8Value := ⟨Kind.bool, b, if b then 1 else 0, ""⟩
/-- A script integer. -/
def ofInt (i : Int) : CefV8Value := ⟨Kind.int, i != 0, i, ""⟩

end CefV8Value

/-- The value a handler assigns to `retval`. -/
inductive RetVal where
  | CreateString (s : String)
  | CreateBool (b : Bool)
  | CreateInt (i : Int)
  | CreateDate (t : Int)
  deriving DecidableEq, Repr

/-- `dwDesiredAccess` of `CreateFile`. -/
inductive Access where
  | GENERIC_READ | GENERIC_WRITE
  deriving DecidableEq, Repr

/-- `dwCreationDisposition` of `CreateFile`. -/
inductive Disposition where
  | OPEN_EXISTING | CREATE_ALWAYS
  deriving DecidableEq, Repr

/-! ## The operating system -/

/-- The host calls of the handlers over a state `σ`.  Paths and names are the C strings the
call receives or fills in.

* `SHBrowseForFolder title`: whether an item was picked (`pidl != 0`).
* `SHGetPathFromIDList`: `szFile` when it succeeds.
* `SHGetMalloc`: whether an allocator was obtained; `IMallocFreeRelease` is its `Free`
  followed by `Release`.
* `GetOpenFileName initialDir multiSelect`: `szFile` when a file was picked.
* `FindFirstFile pattern`: `none` for `INVALID_HANDLE_VALUE`; otherwise the name of the first
  entry and the names the following `FindNextFile` calls yield, in order, before it returns
  0 (a directory enumeration is finite).  `FindNextFile` is the effect of one such call.
* `CreateFile path access disposition`: `none` for `INVALID_HANDLE_VALUE`.
* `malloc n`: whether the pointer is non-null.
* `ReadFile handle n`: on success, the `n` bytes of the buffer after the call.
* `WriteFile handle bytes`: whether it succeeded.
* `wstat path`: `none` for `-1`, otherwise `st_mtime`. -/
structure Os (σ : Type) where
  SHBrowseForFolder : String → σ → Bool × σ
  SHGetPathFromIDList : σ → Option String × σ
  SHGetMalloc : σ → Bool × σ
  IMallocFreeRelease : σ → σ
  GetOpenFileName : String → Bool → σ → Option String × σ
  FindFirstFile : String → σ → Option (String × List String) × σ
  FindNextFile : σ → σ
  FindClose : σ → σ
  GetLastError : σ → Nat × σ
  GetFileAttributes : String → σ → Nat × σ
  CreateFile : String → Access → Disposition → σ → Option Nat × σ
  GetFileSize : Nat → σ → Nat × σ
  malloc : Nat → σ → Bool × σ
  free : σ → σ
  ReadFile : Nat → Nat → σ → Option String × σ
  WriteFile : Nat → String → σ → Bool × σ
  CloseHandle : Nat → σ → σ
  wstat : String → σ → Option Int × σ
  errno : σ → Int
  DeleteFile : String → σ → Bool × σ

/-- What a handler leaves behind: the `int` it returns, the value assigned to `retval`
(`none` when it assigned nothing) and the state of the operating system. -/
structure Outcome (σ : Type) where
  code : Int
  retval : Option RetVal
  os : σ

/-! ## The handlers (lines 217-508) -/

section Handlers

variable {σ : Type}

/-- The dialog part of `ExecuteShowOpenDialog` (lines 240-274): the text left in
`selectedFilenames` and the state after the calls. -/
def pickPath (os : Os σ) (allowsMultipleSelection canChooseDirectories : Bool)
    (wtitle initialPath : String) (s : σ) : String × σ :=
  if canChooseDirectories then
    match os.SHBrowseForFolder (c_str wtitle) s with
    | (true, s1) =>
      match os.SHGetPathFromIDList s1 with
      | (szFile, s2) =>
        let selectedFilenames :=
          match szFile with
          | some strFoldername => WStringToString (c_str strFoldername)
          | none => ""
        match os.SHGetMalloc s2 with
        | (true, s3) => (selectedFilenames, os.IMallocFreeRelease s3)
        | (false, s3) => (selectedFilenames, s3)
    | (false, s1) => ("", s1)
  else
    match os.GetOpenFileName (c_str initialPath) allowsMultipleSelection s with
    | (some strFilename, s1) => (WStringToString (c_str strFilename), s1)
    | (none, s1) => ("", s1)

/-- `ExecuteShowOpenDialog` (line 217). -/
def ExecuteShowOpenDialog (os : Os σ) (arguments : List CefV8Value) (s : σ) : Outcome σ :=
  match arguments with
  | [a0, a1, a2, a3, a4] =>
    if !a2.IsString || !a3.IsString || !a4.IsString then ⟨ERR_INVALID_PARAMS, none, s⟩
    else
      let allowsMultipleSelection := a0.GetBoolValue
      let canChooseDirectories := a1.GetBoolValue
      let wtitle := StringToWString a2.GetStringValue
      let initialPath := StringToWString a3.GetStringValue
      match pickPath os allowsMultipleSelection canChooseDirectories wtitle initialPath s with
      | (selectedFilenames, s1) =>
        let result :=
          if selectedFilenames.length > 0 then
            "[\"" ++ EscapeJSONString selectedFilenames ++ "\"]"
          else "[]"
        ⟨NO_ERROR, some (RetVal.CreateString result), s1⟩
  | _ => ⟨ERR_INVALID_PARAMS, none, s⟩

/-- The `do ... while (FindNextFile(hFind, &ffd) != 0)` loop of `ExecuteReadDir`
(lines 309-322): `cFileName` is the entry in `ffd`, `pending` the entries still to come.
A skipped entry goes straight to the `FindNextFile` call. -/
def readDirLoop (os : Os σ) (cFileName : String) (pending : List String)
    (result : String) (bAddedOne : Bool) (s : σ) : String × σ :=
  let step : String × Bool :=
    if cFileName = "." ∨ cFileName = ".." then (result, bAddedOne)
    else
      ((if bAddedOne then result ++ "," else result)
          ++ ("\"" ++ WStringToString cFileName ++ "\""), true)
  match pending with
  | [] => (step.1, os.FindNextFile s)
  | next :: later => readDirLoop os next later step.1 step.2 (os.FindNextFile s)

/-- `ExecuteReadDir` (line 291). -/
def ExecuteReadDir (os : Os σ) (arguments : List CefV8Value) (s : σ) : Outcome σ :=
  match arguments with
  | [a0] =>
    if !a0.IsString then ⟨ERR_INVALID_PARAMS, none, s⟩
    else
      let pathStr := FixFilename a0.GetStringValue ++ "\\*"
      match os.FindFirstFile (c_str (StringToWString pathStr)) s with
      | (some (first, pending), s1) =>
        match readDirLoop os first pending "[" false s1 with
        | (result, s2) =>
          ⟨NO_ERROR, some (RetVal.CreateString (result ++ "]")), os.FindClose s2⟩
      | (none, s1) =>
        match os.GetLastError s1 with
        | (e, s2) => ⟨ConvertWinErrorCode (dwordToInt e) true, none, s2⟩
  | _ => ⟨ERR_INVALID_PARAMS, none, s⟩

/-- `ExecuteIsDirectory` (line 335). -/
def ExecuteIsDirectory (os : Os σ) (arguments : List CefV8Value) (s : σ) : Outcome σ :=
  match arguments with
  | [a0] =>
    if !a0.IsString then ⟨ERR_INVALID_PARAMS, none, s⟩
    else
      let pathStr := FixFilename a0.GetStringValue
      match os.GetFileAttributes (c_str (StringToWString pathStr)) s with
      | (dwAttr, s1) =>
        if dwAttr = INVALID_FILE_ATTRIBUTES then
          match os.GetLastError s1 with
          | (e, s2) => ⟨ConvertWinErrorCode (dwordToInt e) true, none, s2⟩
        else
          ⟨NO_ERROR, some (RetVal.CreateBool (dwAttr &&& FILE_ATTRIBUTE_DIRECTORY != 0)), s1⟩
  | _ => ⟨ERR_INVALID_PARAMS, none, s⟩

/-- Lines 380-404 of `ExecuteReadFile`: open, size, allocate, read, close. -/
def readContents (os : Os σ) (wPathStr : String) (s : σ) : Outcome σ :=
  match os.CreateFile (c_str wPathStr) Access.GENERIC_READ Disposition.OPEN_EXISTING s with
  | (none, s1) =>
    match os.GetLastError s1 with
    | (e, s2) => ⟨ConvertWinErrorCode (dwordToInt e) true, none, s2⟩
  | (some hFile, s1) =>
    match os.GetFileSize hFile s1 with
    | (dwFileSize, s2) =>
      match os.malloc dwFileSize s2 with
      | (false, s3) => ⟨ERR_UNKNOWN, none, os.CloseHandle hFile s3⟩
      | (true, s3) =>
        match os.ReadFile hFile dwFileSize s3 with
        | (some buffer, s4) =>
          let contents := String.mk (buffer.data.take dwFileSize)
          ⟨NO_ERROR, some (RetVal.CreateString (c_str contents)),
            os.free (os.CloseHandle hFile s4)⟩
        | (none, s4) =>
          match os.GetLastError s4 with
          | (e, s5) =>
            ⟨ConvertWinErrorCode (dwordToInt e) true, none, os.free (os.CloseHandle hFile s5)⟩

/-- `ExecuteReadFile` (line 355). -/
def ExecuteReadFile (os : Os σ) (arguments : List CefV8Value) (s : σ) : Outcome σ :=
  match arguments with
  | [a0, a1] =>
    if !a0.IsString || !a1.IsString then ⟨ERR_INVALID_PARAMS, none, s⟩
    else
      let encodingStr := a1.GetStringValue
      if encodingStr ≠ "utf8" then ⟨ERR_UNSUPPORTED_ENCODING, none, s⟩
      else
        let wPathStr := StringToWString (FixFilename a0.GetStringValue)
        match os.GetFileAttributes (c_str wPathStr) s with
        | (dwAttr, s1) =>
          if INVALID_FILE_ATTRIBUTES = dwAttr then
            match os.GetLastError s1 with
            | (e, s2) => ⟨ConvertWinErrorCode (dwordToInt e) true, none, s2⟩
          else if dwAttr &&& FILE_ATTRIBUTE_DIRECTORY != 0 then ⟨ERR_CANT_READ, none, s1⟩
          else readContents os wPathStr s1
  | _ => ⟨ERR_INVALID_PARAMS, none, s⟩

/-- `ExecuteWriteFile` (line 407). -/
def ExecuteWriteFile (os : Os σ) (arguments : List CefV8Value) (s : σ) : Outcome σ :=
  match arguments with
  | [a0, a1, a2] =>
    if !a0.IsString || !a1.IsString || !a2.IsString then ⟨ERR_INVALID_PARAMS, none, s⟩
    else
      let pathStr := FixFilename a0.GetStringValue
      let contentsStr := a1.GetStringValue
      let encodingStr := a2.GetStringValue
      if encodingStr ≠ "utf8" then ⟨ERR_UNSUPPORTED_ENCODING, none, s⟩
      else
        match os.CreateFile (c_str (StringToWString pathStr)) Access.GENERIC_WRITE
            Disposition.CREATE_ALWAYS s with
        | (none, s1) =>
          match os.GetLastError s1 with
          | (e, s2) => ⟨ConvertWinErrorCode (dwordToInt e) false, none, s2⟩
        | (some hFile, s1) =>
          match os.WriteFile hFile contentsStr s1 with
          | (true, s2) => ⟨NO_ERROR, none, os.CloseHandle hFile s2⟩
          | (false, s2) =>
            match os.GetLastError s2 with
            | (e, s3) =>
              ⟨ConvertWinErrorCode (dwordToInt e) false, none, os.CloseHandle hFile s3⟩
  | _ => ⟨ERR_INVALID_PARAMS, none, s⟩

/-- `ExecuteGetFileModificationTime` (line 440). -/
def ExecuteGetFileModificationTime (os : Os σ) (arguments : List CefV8Value) (s : σ) :
    Outcome σ :=
  match arguments with
  | [a0] =>
    if !a0.IsString then ⟨ERR_INVALID_PARAMS, none, s⟩
    else
      let pathStr := stripTrailingSeparator (FixFilename a0.GetStringValue)
      match os.wstat (c_str (StringToWString pathStr)) s with
      | (none, s1) => ⟨ConvertErrnoCode (os.errno s1) true, none, s1⟩
      | (some st_mtime, s1) => ⟨NO_ERROR, some (RetVal.CreateDate st_mtime), s1⟩
  | _ => ⟨ERR_INVALID_PARAMS, none, s⟩

/-- `ExecuteSetPosixPermissions` (line 471); the `_wchmod` call is commented out. -/
def ExecuteSetPosixPermissions (_os : Os σ) (arguments : List CefV8Value) (s : σ) :
    Outcome σ :=
  match arguments with
  | [a0, a1] =>
    if !a0.IsString || !a1.IsInt then ⟨ERR_INVALID_PARAMS, none, s⟩
    else ⟨NO_ERROR, none, s⟩
  | _ => ⟨ERR_INVALID_PARAMS, none, s⟩

/-- `ExecuteDeleteFileOrDirectory` (line 494). -/
def ExecuteDeleteFileOrDirectory (os : Os σ) (arguments : List CefV8Value) (s : σ) :
    Outcome σ :=
  match arguments with
  | [a0] =>
    if !a0.IsString then ⟨ERR_INVALID_PARAMS, none, s⟩
    else
      let pathStr := FixFilename a0.GetStringValue
      match os.DeleteFile (c_str (StringToWString pathStr)) s with
      | (false, s1) =>
        match os.GetLastError s1 with
        | (e, s2) => ⟨ConvertWinErrorCode (dwordToInt e) true, none, s2⟩
      | (true, s1) => ⟨NO_ERROR, none, s1⟩
  | _ => ⟨ERR_INVALID_PARAMS, none, s⟩

/-! ## The dispatcher (lines 27-214) -/

/-- The handler object: its `lastError` member. -/
structure Handler where
  lastError : Int
  deriving DecidableEq, Repr

/-- The constructor (line 27): `lastError(0)`. -/
def Handler.new : Handler := ⟨0⟩

/-- What `Execute` leaves behind: its `bool`, `retval`, the handler and the operating
system. -/
structure Executed (σ : Type) where
  handled : Bool
  retval : Option RetVal
  handler : Handler
  os : σ

/-- Lines 207-213: the register is written and `true` returned unless `errorCode` still
holds the initial `-1`. -/
def finish (h : Handler) (r : Outcome σ) : Executed σ :=
  if r.code ≠ -1 then ⟨true, r.retval, ⟨r.code⟩, r.os⟩
  else ⟨false, r.retval, h, r.os⟩

/-- `Execute` (line 32). -/
def Execute (os : Os σ) (name : String) (arguments : List CefV8Value) (h : Handler)
    (s : σ) : Executed σ :=
  if name = "ShowOpenDialog" then finish h (ExecuteShowOpenDialog os arguments s)
  else if name = "ReadDir" then finish h (ExecuteReadDir os arguments s)
  else if name = "IsDirectory" then finish h (ExecuteIsDirectory os arguments s)
  else if name = "ReadFile" then finish h (ExecuteReadFile os arguments s)
  else if name = "WriteFile" then finish h (ExecuteWriteFile os arguments s)
  else if name = "SetPosixPermissions" then
    finish h (ExecuteSetPosixPermissions os arguments s)
  else if name = "GetFileModificationTime" then
    finish h (ExecuteGetFileModificationTime os arguments s)
  else if name = "DeleteFileOrDirectory" then
    finish h (ExecuteDeleteFileOrDirectory os arguments s)
  else if name = "GetLastError" then ⟨true, some (RetVal.CreateInt h.lastError), h, s⟩
  else finish h ⟨-1, none, s⟩

end Handlers

/-! ## A small in-memory operating system

One concrete `Os`: regular files and directories by path, one file handle, a canned dialog
answer, and a counter of the calls made. -/

/-- The state of the in-memory operating system. -/
structure Disk where
  files : List (String × String)
  dirs : List (String × List String)
  picked : Option String
  lastError : Nat
  errno : Int
  opened : Option String
  mtime : Int
  calls : Nat
  deriving DecidableEq, Repr

namespace Disk

/-- A disk with nothing on it. -/
def empty : Disk := ⟨[], [], none, 0, 0, none, 0, 0⟩

/-- One more call has been made. -/
def tick (d : Disk) : Disk := { d with calls := d.calls + 1 }

/-- The call failed with the given last-error value. -/
def fail (d : Disk) (e : Nat) : Disk := { d with lastError := e, calls := d.calls + 1 }

/-- The contents of the regular file at `path`. -/
def file (d : Disk) (path : String) : Option String :=
  (d.files.find? (fun f => f.1 = path)).map (fun f => f.2)

/-- The entries of the directory at `path`. -/
def dir (d : Disk) (path : String) : Option (List String) :=
  (d.dirs.find? (fun f => f.1 = path)).map (fun f => f.2)

/-- The regular file at `path` now holds `bytes`. -/
def store (d : Disk) (path bytes : String) : Disk :=
  { d with files := (path, bytes) :: d.files.filter (fun f => f.1 ≠ path) }

end Disk

/-- The in-memory operating system. -/
def diskOs : Os Disk where
  SHBrowseForFolder := fun _ d => (d.picked.isSome, d.tick)
  SHGetPathFromIDList := fun d => (d.picked, d.tick)
  SHGetMalloc := fun d => (true, d.tick)
  IMallocFreeRelease := fun d => d.tick
  GetOpenFileName := fun _ _ d => (d.picked, d.tick)
  FindFirstFile := fun pattern d =>
    match d.dirs.find? (fun f => f.1 ++ "\\*" = pattern) with
    | some f => (some (".", ".." :: f.2), d.tick)
    | none => (none, d.fail 3)
  FindNextFile := fun d => d.tick
  FindClose := fun d => d.tick
  GetLastError := fun d => (d.lastError, d.tick)
  GetFileAttributes := fun path d =>
    if (d.dir path).isSome then (0x10, d.tick)
    else if (d.file path).isSome then (0x80, d.tick)
    else (INVALID_FILE_ATTRIBUTES, d.fail 2)
  CreateFile := fun path _ disposition d =>
    if (d.dir path).isSome then (none, d.fail 5)
    else
      match disposition with
      | Disposition.OPEN_EXISTING =>
        if (d.file path).isSome then (some 1, { d.tick with opened := some path })
        else (none, d.fail 2)
      | Disposition.CREATE_ALWAYS => (some 1, { (d.store path "").tick with opened := some path })
  GetFileSize := fun _ d =>
    match d.opened.bind d.file with
    | some bytes => (bytes.length, d.tick)
    | none => (0xFFFFFFFF, d.fail 6)
  malloc := fun _ d => (true, d.tick)
  free := fun d => d.tick
  ReadFile := fun _ n d =>
    match d.opened.bind d.file with
    | some bytes => (some (String.mk (bytes.data.take n)), d.tick)
    | none => (none, d.fail 6)
  WriteFile := fun _ bytes d =>
    match d.opened with
    | some path => (true, (d.store path (((d.file path).getD "") ++ bytes)).tick)
    | none => (false, d.fail 6)
  CloseHandle := fun _ d => { d.tick with opened := none }
  wstat := fun path d =>
    if (d.dir path).isSome ∨ (d.file path).isSome then (some d.mtime, d.tick)
    else (none, { d.tick with errno := ENOENT })
  errno := fun d => d.errno
  DeleteFile := fun path d =>
    if (d.file path).isSome then
      (true, { d.tick with files := d.files.filter (fun f => f.1 ≠ path) })
    else (false, d.fail (if (d.dir path).isSome then 5 else 2))

/-! ## The argument shapes the operations expect -/

/-- The eight filesystem operations. -/
def fileOperations : List String :=
  ["ShowOpenDialog", "ReadDir", "IsDirectory", "ReadFile", "WriteFile",
    "SetPosixPermissions", "GetFileModificationTime", "DeleteFileOrDirectory"]

/-- The kinds of the positional arguments of each operation, as the comments of `Execute`
list them. -/
def expectedKinds (name : String) : List Kind :=
  if name = "ShowOpenDialog" then
    [Kind.bool, Kind.bool, Kind.string, Kind.string, Kind.string]
  else if name = "ReadFile" then [Kind.string, Kind.string]
  else if name = "WriteFile" then [Kind.string, Kind.string, Kind.string]
  else if name = "SetPosixPermissions" then [Kind.string, Kind.int]
  else [Kind.string]

/-- The arguments have the arity and the kinds the operation expects. -/
def wellTyped (name : String) (arguments : List CefV8Value) : Prop :=
  arguments.map (fun a => a.kind) = expectedKinds name

instance (name : String) (arguments : List CefV8Value) : Decidable (wellTyped name arguments) :=
  inferInstanceAs (Decidable (_ = _))

/-- The handler function `Execute` calls for a filesystem operation. -/
def handlerOf {σ : Type} (os : Os σ) (name : String) :
    Option (List CefV8Value → σ → Outcome σ) :=
  if name = "ShowOpenDialog" then some (ExecuteShowOpenDialog os)
  else if name = "ReadDir" then some (ExecuteReadDir os)
  else if name = "IsDirectory" then some (ExecuteIsDirectory os)
  else if name = "ReadFile" then some (ExecuteReadFile os)
  else if name = "WriteFile" then some (ExecuteWriteFile os)
  else if name = "SetPosixPermissions" then some (ExecuteSetPosixPermissions os)
  else if name = "GetFileModificationTime" then some (ExecuteGetFileModificationTime os)
  else if name = "DeleteFileOrDirectory" then some (ExecuteDeleteFileOrDirectory os)
  else none

/-! ## Sequences of calls -/

/-- One call of `Execute`: the operation name and the argument list. -/
structure Call where
  name : String
  arguments : List CefV8Value
  deriving DecidableEq, Repr

/-- The handler and the operating system after the calls of a sequence, made in order. -/
def runCalls {σ : Type} (os : Os σ) : List Call → Handler → σ → Handler × σ
  | [], h, s => (h, s)
  | c :: cs, h, s =>
    runCalls os cs (Execute os c.name c.arguments h s).handler
      (Execute os c.name c.arguments h s).os

/-- What call number `n` of the sequence (counted from 0) leaves behind, on a freshly
constructed handler. -/
def resultAt {σ : Type} (os : Os σ) (cs : List Call) (s : σ) (n : Nat) :
    Option (Executed σ) :=
  (cs.get? n).map (fun c =>
    Execute os c.name c.arguments (runCalls os (cs.take n) Handler.new s).1
      (runCalls os (cs.take n) Handler.new s).2)

/-- The code the handler function of a filesystem operation returns for a call made in
state `s`; `none` when the name is not one of the eight. -/
def producedCode {σ : Type} (os : Os σ) (c : Call) (s : σ) : Option Int :=
  (handlerOf os c.name).map (fun f => (f c.arguments s).code)

/-- The register as the specification describes it: before call number `n`, the code
produced by the most recent earlier call that is a filesystem operation, and 0 when there
is none. -/
def registerSpec {σ : Type} (os : Os σ) (cs : List Call) (s : σ) : Nat → Int
  | 0 => 0
  | n + 1 =>
    match (cs.get? n).bind
        (fun c => producedCode os c (runCalls os (cs.take n) Handler.new s).2) with
    | some code => code
    | none => registerSpec os cs s n

/-! ## Array literals -/

/-- The entries a listing shows: all but the self and parent entries. -/
def listed (names : List String) : List String :=
  names.filter (fun n => n ≠ "." ∧ n ≠ "..")

/-- The array literal of a list of strings: `[`, the items in double quotes separated by
single commas, `]`. -/
def arrayLiteral (items : List String) : String :=
  "[" ++ ",".intercalate (items.map (fun n => "\"" ++ n ++ "\"")) ++ "]"

/-! ## Sample inputs -/

/-- A short session: a read with no arguments, two reads of the register around a call with
an unknown name, a successful permission call, and a last read of the register. -/
def sampleCalls : List Call :=
  [⟨"ReadFile", []⟩, ⟨"GetLastError", []⟩, ⟨"readdir", []⟩, ⟨"GetLastError", []⟩,
    ⟨"SetPosixPermissions", [CefV8Value.ofString "f", CefV8Value.ofInt 420]⟩,
    ⟨"GetLastError", []⟩]

/-- A disk with one directory `d` that holds `a.txt` and `b`, and one file `f`. -/
def sampleDisk : Disk :=
  { Disk.empty with dirs := [("d", ["a.txt", "b"])], files := [("f", "hello")] }

/-- A disk with one directory `d` whose only entry has the one-character name U+4E2D. -/
def wideNameDisk : Disk := { Disk.empty with dirs := [("d", ["\u4E2D"])] }

/-! ## The dialog result and the index check, as the specification describes them -/

/-- The characters that are replaced and what replaces each: the two-character backslash
escapes of `\a \b \f \n \r \t \v` and of the double quote, and a forward slash for the
backslash. -/
def escapeTable : List (Char × String) :=
  [(Char.ofNat 7, "\\a"), (Char.ofNat 8, "\\b"), (Char.ofNat 12, "\\f"), ('\n', "\\n"),
    ('\r', "\\r"), ('\t', "\\t"), (Char.ofNat 11, "\\v"), ('"', "\\\""), ('\\', "/")]

/-- What stands for one character in the escaped text: its entry in `escapeTable`, or the
character itself when it has none. -/
def escapeSpecChar (c : Char) : String :=
  match escapeTable.lookup c with
  | some replacement => replacement
  | none => String.singleton c

/-- The escaped text as the specification describes it: `p` with each character replaced by
what stands for it. -/
def escapeSpec (p : String) : String :=
  String.mk (p.data.flatMap (fun c => (escapeSpecChar c).data))

/-- Whether every double quote of a text comes right after a backslash; `previous` is the
character before the text. -/
def quotesEscaped (previous : Option Char) : List Char → Bool
  | [] => true
  | c :: cs => (c != '"' || previous == some '\\') && quotesEscaped (some c) cs

/-- The dialog result as the specification describes it for a selected path `p`: `[]` when
`p` is empty, otherwise the one-element array literal of the escaped `p`. -/
def dialogResultSpec (p : String) : String :=
  if p = "" then "[]" else "[\"" ++ escapeSpec p ++ "\"]"

/-- Whether `i` is the index of one of the characters of `s`. -/
def indexInBounds (s : String) (i : Nat) : Bool := decide (i < s.length)

/-- A disk whose dialog answers with a path that holds U+4E2D. -/
def widePickDisk : Disk := { Disk.empty with picked := some "C:\\docs\\\u4E2D.txt" }

/-- A disk whose dialog answers with a path of plain characters. -/
def plainPickDisk : Disk := { Disk.empty with picked := some "C:\\docs\\a.txt" }

end Brackets

namespace Brackets
open CefV8Value

/-! ## Argument validation -/

section Validation

variable {σ : Type}

theorem ExecuteReadDir_invalid (os : Os σ) (arguments : List CefV8Value) (s : σ)
    (h : arguments.map (fun a => a.kind) ≠ [Kind.string]) :
    ExecuteReadDir os arguments s = ⟨ERR_INVALID_PARAMS, none, s⟩ := by
  rcases arguments with _ | ⟨a0, _ | ⟨a1, t⟩⟩ <;> simp_all [ExecuteReadDir, IsString]

theorem ExecuteIsDirectory_invalid (os : Os σ) (arguments : List CefV8Value) (s : σ)
    (h : arguments.map (fun a => a.kind) ≠ [Kind.string]) :
    ExecuteIsDirectory os arguments s = ⟨ERR_INVALID_PARAMS, none, s⟩ := by
  rcases arguments with _ | ⟨a0, _ | ⟨a1, t⟩⟩ <;> simp_all [ExecuteIsDirectory, IsString]

theorem ExecuteGetFileModificationTime_invalid (os : Os σ) (arguments : List CefV8Value)
    (s : σ) (h : arguments.map (fun a => a.kind) ≠ [Kind.string]) :
    ExecuteGetFileModificationTime os arguments s = ⟨ERR_INVALID_PARAMS, none, s⟩ := by
  rcases arguments with _ | ⟨a0, _ | ⟨a1, t⟩⟩ <;>
    simp_all [ExecuteGetFileModificationTime, IsString]

theorem ExecuteDeleteFileOrDirectory_invalid (os : Os σ) (arguments : List CefV8Value)
    (s : σ) (h : arguments.map (fun a => a.kind) ≠ [Kind.string]) :
    ExecuteDeleteFileOrDirectory os arguments s = ⟨ERR_INVALID_PARAMS, none, s⟩ := by
  rcases arguments with _ | ⟨a0, _ | ⟨a1, t⟩⟩ <;>
    simp_all [ExecuteDeleteFileOrDirectory, IsString]

theorem ExecuteReadFile_invalid (os : Os σ) (arguments : List CefV8Value) (s : σ)
    (h : arguments.map (fun a => a.kind) ≠ [Kind.string, Kind.string]) :
    ExecuteReadFile os arguments s = ⟨ERR_INVALID_PARAMS, none, s⟩ := by
  rcases arguments with _ | ⟨a0, _ | ⟨a1, _ | ⟨a2, t⟩⟩⟩ <;>
    simp_all [ExecuteReadFile, IsString]

theorem ExecuteSetPosixPermissions_invalid (os : Os σ) (arguments : List CefV8Value) (s : σ)
    (h : arguments.map (fun a => a.kind) ≠ [Kind.string, Kind.int]) :
    ExecuteSetPosixPermissions os arguments s = ⟨ERR_INVALID_PARAMS, none, s⟩ := by
  rcases arguments with _ | ⟨a0, _ | ⟨a1, _ | ⟨a2, t⟩⟩⟩ <;>
    simp_all [ExecuteSetPosixPermissions, IsString, IsInt]

theorem ExecuteWriteFile_invalid (os : Os σ) (arguments : List CefV8Value) (s : σ)
    (h : arguments.map (fun a => a.kind) ≠ [Kind.string, Kind.string, Kind.string]) :
    ExecuteWriteFile os arguments s = ⟨ERR_INVALID_PARAMS, none, s⟩ := by
  rcases arguments with _ | ⟨a0, _ | ⟨a1, _ | ⟨a2, _ | ⟨a3, t⟩⟩⟩⟩ <;>
    simp_all [ExecuteWriteFile, IsString]

/-- What `ExecuteShowOpenDialog` does check: five arguments, the last three of them
strings. -/
theorem ExecuteShowOpenDialog_invalid (os : Os σ) (arguments : List CefV8Value) (s : σ)
    (h : arguments.length ≠ 5 ∨
      (arguments.drop 2).map (fun a => a.kind) ≠ [Kind.string, Kind.string, Kind.string]) :
    ExecuteShowOpenDialog os arguments s = ⟨ERR_INVALID_PARAMS, none, s⟩ := by
  rcases arguments with _ | ⟨a0, _ | ⟨a1, _ | ⟨a2, _ | ⟨a3, _ | ⟨a4, _ | ⟨a5, t⟩⟩⟩⟩⟩⟩ <;>
    simp_all [ExecuteShowOpenDialog, IsString]

/-- Every operation other than `ShowOpenDialog` answers ill-typed arguments with
`ERR_INVALID_PARAMS`, assigns no value and makes no call. -/
theorem invalid_params_except_dialog (os : Os σ) (name : String)
    (arguments : List CefV8Value) (s : σ) (f : List CefV8Value → σ → Outcome σ)
    (hf : handlerOf os name = some f) (hname : name ≠ "ShowOpenDialog")
    (h : ¬ wellTyped name arguments) :
    f arguments s = ⟨ERR_INVALID_PARAMS, none, s⟩ := by
  unfold handlerOf at hf
  unfold wellTyped expectedKinds at h
  split_ifs at hf h <;> first
    | contradiction
    | (cases hf
       first
        | exact ExecuteReadDir_invalid os arguments s h
        | exact ExecuteIsDirectory_invalid os arguments s h
        | exact ExecuteReadFile_invalid os arguments s h
        | exact ExecuteWriteFile_invalid os arguments s h
        | exact ExecuteSetPosixPermissions_invalid os arguments s h
        | exact ExecuteGetFileModificationTime_invalid os arguments s h
        | exact ExecuteDeleteFileOrDirectory_invalid os arguments s h)
    | (subst_vars; simp at *)

end Validation

/-- Claim C1, the defect: `ShowOpenDialog` called with integers where its two booleans
belong is not answered with `ERR_INVALID_PARAMS`.  The arguments are ill-typed, yet the
handler returns `NO_ERROR`, assigns a result and has made a host call (the file dialog). -/
theorem C1_ShowOpenDialog_accepts_non_boolean :
    ¬ wellTyped "ShowOpenDialog"
        [ofInt 1, ofInt 0, ofString "", ofString "", ofString ""] ∧
    (ExecuteShowOpenDialog diskOs
        [ofInt 1, ofInt 0, ofString "", ofString "", ofString ""] Disk.empty).code
      = NO_ERROR ∧
    (ExecuteShowOpenDialog diskOs
        [ofInt 1, ofInt 0, ofString "", ofString "", ofString ""] Disk.empty).retval
      = some (RetVal.CreateString "[]") ∧
    (ExecuteShowOpenDialog diskOs
        [ofInt 1, ofInt 0, ofString "", ofString "", ofString ""] Disk.empty).os.calls = 1 := by
  decide

/-! ## Reading back what was written -/

section RoundTrip

variable {σ : Type}

/-- A read whose host calls all succeed returns the buffer as a C string: the bytes before
the first terminator. -/
theorem ExecuteReadFile_success (os : Os σ) (a0 a1 : CefV8Value) (s s1 s2 s3 s4 s5 : σ)
    (dwAttr hFile dwFileSize : Nat) (buffer : String)
    (h0 : a0.IsString = true) (h1 : a1.IsString = true) (henc : a1.GetStringValue = "utf8")
    (hattr : os.GetFileAttributes (c_str (StringToWString (FixFilename a0.GetStringValue))) s
      = (dwAttr, s1))
    (hvalid : dwAttr ≠ INVALID_FILE_ATTRIBUTES)
    (hfile : dwAttr &&& FILE_ATTRIBUTE_DIRECTORY = 0)
    (hopen : os.CreateFile (c_str (StringToWString (FixFilename a0.GetStringValue)))
      Access.GENERIC_READ Disposition.OPEN_EXISTING s1 = (some hFile, s2))
    (hsize : os.GetFileSize hFile s2 = (dwFileSize, s3))
    (halloc : os.malloc dwFileSize s3 = (true, s4))
    (hread : os.ReadFile hFile dwFileSize s4 = (some buffer, s5)) :
    ExecuteReadFile os [a0, a1] s =
      ⟨NO_ERROR, some (RetVal.CreateString (c_str (String.mk (buffer.data.take dwFileSize)))),
        os.free (os.CloseHandle hFile s5)⟩ := by
  have hv : ¬ INVALID_FILE_ATTRIBUTES = dwAttr := fun h => hvalid h.symm
  simp [ExecuteReadFile, readContents, h0, h1, henc, hattr, hv, hfile, hopen, hsize, halloc,
    hread]

end RoundTrip

theorem Disk.file_store (d : Disk) (path bytes : String) :
    (d.store path bytes).file path = some bytes := by
  simp [Disk.store, Disk.file]

theorem c_str_of_no_NUL (s : String) (h : NUL ∉ s.data) : c_str s = s := by
  unfold c_str
  have : s.data.takeWhile (fun c => c != NUL) = s.data := by
    rw [List.takeWhile_eq_self_iff]
    intro c hc
    simp only [bne_iff_ne, ne_eq]
    intro heq
    exact h (heq ▸ hc)
  rw [this]

theorem Disk.dir_store (d : Disk) (path bytes p : String) :
    (d.store path bytes).dir p = d.dir p := rfl

theorem diskOs_write (d : Disk) (path contents : String)
    (hdir : d.dir (c_str (StringToWString (FixFilename path))) = none) :
    (ExecuteWriteFile diskOs [ofString path, ofString contents, ofString "utf8"] d).code
      = NO_ERROR ∧
    (ExecuteWriteFile diskOs [ofString path, ofString contents, ofString "utf8"] d).os.dir
        (c_str (StringToWString (FixFilename path))) = none ∧
    (ExecuteWriteFile diskOs [ofString path, ofString contents, ofString "utf8"] d).os.file
        (c_str (StringToWString (FixFilename path))) = some contents := by
  have hopen : diskOs.CreateFile (c_str (StringToWString (FixFilename path)))
      Access.GENERIC_WRITE Disposition.CREATE_ALWAYS d =
      (some 1, { (d.store (c_str (StringToWString (FixFilename path))) "").tick with
        opened := some (c_str (StringToWString (FixFilename path))) }) := by
    simp [diskOs, hdir]
  have hwrite : ∀ e : Disk, e.opened = some (c_str (StringToWString (FixFilename path))) →
      e.file (c_str (StringToWString (FixFilename path))) = some "" →
      diskOs.WriteFile 1 contents e =
        (true, (e.store (c_str (StringToWString (FixFilename path))) contents).tick) := by
    intro e he hf
    simp [diskOs, he, hf]
  have h1 := hwrite { (d.store (c_str (StringToWString (FixFilename path))) "").tick with
        opened := some (c_str (StringToWString (FixFilename path))) } rfl
      (Disk.file_store d _ "")
  simp only [ExecuteWriteFile, ofString, IsString, GetStringValue, hopen, h1]
  refine ⟨by simp, ?_, ?_⟩
  · simpa [diskOs, Disk.tick, Disk.dir, Disk.store] using hdir
  · simp [diskOs, Disk.tick, Disk.file, Disk.store]

theorem diskOs_read (d : Disk) (path bytes : String)
    (hdir : d.dir (c_str (StringToWString (FixFilename path))) = none)
    (hfile : d.file (c_str (StringToWString (FixFilename path))) = some bytes) :
    (ExecuteReadFile diskOs [ofString path, ofString "utf8"] d).code = NO_ERROR ∧
    (ExecuteReadFile diskOs [ofString path, ofString "utf8"] d).retval =
      some (RetVal.CreateString (c_str bytes)) := by
  have h := ExecuteReadFile_success diskOs (ofString path) (ofString "utf8") d d.tick
    { d.tick.tick with opened := some (c_str (StringToWString (FixFilename path))) }
    { d.tick.tick.tick with opened := some (c_str (StringToWString (FixFilename path))) }
    { d.tick.tick.tick.tick with opened := some (c_str (StringToWString (FixFilename path))) }
    { d.tick.tick.tick.tick.tick with
      opened := some (c_str (StringToWString (FixFilename path))) }
    0x80 1 bytes.length (String.mk (bytes.data.take bytes.length)) rfl rfl rfl
    (by simp [diskOs, ofString, GetStringValue, hdir, hfile])
    (by decide) (by decide)
    (by
      have hd : d.tick.dir (c_str (StringToWString (FixFilename path))) = none := hdir
      have hf : d.tick.file (c_str (StringToWString (FixFilename path))) = some bytes := hfile
      simp [diskOs, ofString, GetStringValue, hd, hf])
    (by
      have hf : Disk.file { d.tick.tick with
          opened := some (c_str (StringToWString (FixFilename path))) }
          (c_str (StringToWString (FixFilename path))) = some bytes := hfile
      simp [diskOs, hf]
      rfl)
    (by simp [diskOs]; rfl)
    (by
      have hf : Disk.file { d.tick.tick.tick.tick with
          opened := some (c_str (StringToWString (FixFilename path))) }
          (c_str (StringToWString (FixFilename path))) = some bytes := hfile
      simp [diskOs, hf]
      rfl)
  rw [h]
  have : List.take bytes.length (List.take bytes.length bytes.data) = bytes.data := by
    have hl : bytes.length = bytes.data.length := rfl
    rw [hl, List.take_length, List.take_length]
  refine ⟨rfl, ?_⟩
  show some (RetVal.CreateString (c_str (String.mk
    (List.take bytes.length (List.take bytes.length bytes.data))))) = _
  rw [this]

/-- On the in-memory system a write followed by a read of the same path returns the written
string as a C string: all of it exactly when it holds no NUL. -/
theorem diskOs_write_then_read (d : Disk) (path contents : String)
    (hdir : d.dir (c_str (StringToWString (FixFilename path))) = none) :
    (ExecuteWriteFile diskOs [ofString path, ofString contents, ofString "utf8"] d).code
      = NO_ERROR ∧
    (ExecuteReadFile diskOs [ofString path, ofString "utf8"]
      (ExecuteWriteFile diskOs [ofString path, ofString contents, ofString "utf8"] d).os).code
      = NO_ERROR ∧
    (ExecuteReadFile diskOs [ofString path, ofString "utf8"]
      (ExecuteWriteFile diskOs [ofString path, ofString contents, ofString "utf8"] d).os).retval
      = some (RetVal.CreateString (c_str contents)) := by
  obtain ⟨hcode, hd, hf⟩ := diskOs_write d path contents hdir
  obtain ⟨hrc, hrv⟩ := diskOs_read _ path contents hd hf
  exact ⟨hcode, hrc, hrv⟩

/-- Claim C2, the defect: on the in-memory system, writing the three bytes `a`, NUL, `b` to
`f` returns `NO_ERROR` and stores all three, and reading `f` back returns `NO_ERROR` with
the one-byte string `a`, which is not what was written. -/
theorem C2_round_trip_stops_at_NUL :
    (ExecuteWriteFile diskOs [ofString "f", ofString "a\x00b", ofString "utf8"]
        Disk.empty).code = NO_ERROR ∧
    (ExecuteWriteFile diskOs [ofString "f", ofString "a\x00b", ofString "utf8"]
        Disk.empty).os.file "f" = some "a\x00b" ∧
    (ExecuteReadFile diskOs [ofString "f", ofString "utf8"]
        (ExecuteWriteFile diskOs [ofString "f", ofString "a\x00b", ofString "utf8"]
          Disk.empty).os).code = NO_ERROR ∧
    (ExecuteReadFile diskOs [ofString "f", ofString "utf8"]
        (ExecuteWriteFile diskOs [ofString "f", ofString "a\x00b", ofString "utf8"]
          Disk.empty).os).retval = some (RetVal.CreateString "a") ∧
    RetVal.CreateString "a" ≠ RetVal.CreateString "a\x00b" := by
  decide

/-! ## The codes the handlers return -/

section Codes

variable {σ : Type}

theorem ConvertWinErrorCode_range (errorCode : Int) (isReading : Bool) :
    0 ≤ ConvertWinErrorCode errorCode isReading ∧ ConvertWinErrorCode errorCode isReading ≤ 7 := by
  unfold ConvertWinErrorCode
  split_ifs <;> decide

theorem ConvertErrnoCode_range (errorCode : Int) (isReading : Bool) :
    0 ≤ ConvertErrnoCode errorCode isReading ∧ ConvertErrnoCode errorCode isReading ≤ 7 := by
  unfold ConvertErrnoCode
  split_ifs <;> decide

theorem ExecuteShowOpenDialog_range (os : Os σ) (arguments : List CefV8Value) (s : σ) :
    0 ≤ (ExecuteShowOpenDialog os arguments s).code ∧
      (ExecuteShowOpenDialog os arguments s).code ≤ 7 := by
  unfold ExecuteShowOpenDialog
  repeat' (first | split | dsimp only)
  all_goals exact ⟨by decide, by decide⟩

theorem ExecuteReadDir_range (os : Os σ) (arguments : List CefV8Value) (s : σ) :
    0 ≤ (ExecuteReadDir os arguments s).code ∧ (ExecuteReadDir os arguments s).code ≤ 7 := by
  unfold ExecuteReadDir
  repeat' (first | split | dsimp only)
  all_goals first | exact ⟨by decide, by decide⟩ | exact ConvertWinErrorCode_range _ _

theorem ExecuteIsDirectory_range (os : Os σ) (arguments : List CefV8Value) (s : σ) :
    0 ≤ (ExecuteIsDirectory os arguments s).code ∧
      (ExecuteIsDirectory os arguments s).code ≤ 7 := by
  unfold ExecuteIsDirectory
  repeat' (first | split | dsimp only)
  all_goals first | exact ⟨by decide, by decide⟩ | exact ConvertWinErrorCode_range _ _

theorem readContents_range (os : Os σ) (wPathStr : String) (s : σ) :
    0 ≤ (readContents os wPathStr s).code ∧ (readContents os wPathStr s).code ≤ 7 := by
  unfold readContents
  repeat' (first | split | dsimp only)
  all_goals first | exact ⟨by decide, by decide⟩ | exact ConvertWinErrorCode_range _ _

theorem ExecuteReadFile_range (os : Os σ) (arguments : List CefV8Value) (s : σ) :
    0 ≤ (ExecuteReadFile os arguments s).code ∧ (ExecuteReadFile os arguments s).code ≤ 7 := by
  unfold ExecuteReadFile
  repeat' (first | split | dsimp only)
  all_goals first
    | exact ⟨by decide, by decide⟩
    | exact ConvertWinErrorCode_range _ _
    | exact readContents_range _ _ _

theorem ExecuteWriteFile_range (os : Os σ) (arguments : List CefV8Value) (s : σ) :
    0 ≤ (ExecuteWriteFile os arguments s).code ∧ (ExecuteWriteFile os arguments s).code ≤ 7 := by
  unfold ExecuteWriteFile
  repeat' (first | split | dsimp only)
  all_goals first | exact ⟨by decide, by decide⟩ | exact ConvertWinErrorCode_range _ _

theorem ExecuteGetFileModificationTime_range (os : Os σ) (arguments : List CefV8Value)
    (s : σ) :
    0 ≤ (ExecuteGetFileModificationTime os arguments s).code ∧
      (ExecuteGetFileModificationTime os arguments s).code ≤ 7 := by
  unfold ExecuteGetFileModificationTime
  repeat' (first | split | dsimp only)
  all_goals first | exact ⟨by decide, by decide⟩ | exact ConvertErrnoCode_range _ _

theorem ExecuteSetPosixPermissions_range (os : Os σ) (arguments : List CefV8Value) (s : σ) :
    0 ≤ (ExecuteSetPosixPermissions os arguments s).code ∧
      (ExecuteSetPosixPermissions os arguments s).code ≤ 7 := by
  unfold ExecuteSetPosixPermissions
  repeat' (first | split | dsimp only)
  all_goals exact ⟨by decide, by decide⟩

theorem ExecuteDeleteFileOrDirectory_range (os : Os σ) (arguments : List CefV8Value)
    (s : σ) :
    0 ≤ (ExecuteDeleteFileOrDirectory os arguments s).code ∧
      (ExecuteDeleteFileOrDirectory os arguments s).code ≤ 7 := by
  unfold ExecuteDeleteFileOrDirectory
  repeat' (first | split | dsimp only)
  all_goals first | exact ⟨by decide, by decide⟩ | exact ConvertWinErrorCode_range _ _

/-- Every handler function returns a code between 0 and 7. -/
theorem handlerOf_range (os : Os σ) (name : String) (f : List CefV8Value → σ → Outcome σ)
    (hf : handlerOf os name = some f) (arguments : List CefV8Value) (s : σ) :
    0 ≤ (f arguments s).code ∧ (f arguments s).code ≤ 7 := by
  unfold handlerOf at hf
  split_ifs at hf <;> first
    | contradiction
    | (cases hf
       first
        | exact ExecuteShowOpenDialog_range os arguments s
        | exact ExecuteReadDir_range os arguments s
        | exact ExecuteIsDirectory_range os arguments s
        | exact ExecuteReadFile_range os arguments s
        | exact ExecuteWriteFile_range os arguments s
        | exact ExecuteSetPosixPermissions_range os arguments s
        | exact ExecuteGetFileModificationTime_range os arguments s
        | exact ExecuteDeleteFileOrDirectory_range os arguments s)

end Codes

/-! ## The dispatcher and the register -/

section Dispatch

variable {σ : Type}

theorem finish_of_range (h : Handler) (r : Outcome σ) (hr : 0 ≤ r.code ∧ r.code ≤ 7) :
    finish h r = ⟨true, r.retval, ⟨r.code⟩, r.os⟩ := by
  have : r.code ≠ -1 := by omega
  simp [finish, this]

/-- A filesystem operation: `Execute` runs its handler function and stores the code. -/
theorem Execute_of_handlerOf (os : Os σ) (name : String) (arguments : List CefV8Value)
    (h : Handler) (s : σ) (f : List CefV8Value → σ → Outcome σ)
    (hf : handlerOf os name = some f) :
    Execute os name arguments h s =
      ⟨true, (f arguments s).retval, ⟨(f arguments s).code⟩, (f arguments s).os⟩ := by
  have hr := handlerOf_range os name f hf arguments s
  unfold handlerOf at hf
  unfold Execute
  split_ifs at hf ⊢ <;> first
    | contradiction
    | (cases hf; exact finish_of_range h _ hr)

/-- Any other name: the handler and the operating system stay as they are. -/
theorem Execute_of_handlerOf_none (os : Os σ) (name : String) (arguments : List CefV8Value)
    (h : Handler) (s : σ) (hf : handlerOf os name = none) :
    Execute os name arguments h s =
      if name = "GetLastError" then ⟨true, some (RetVal.CreateInt h.lastError), h, s⟩
      else ⟨false, none, h, s⟩ := by
  unfold handlerOf at hf
  unfold Execute
  split_ifs at hf ⊢ <;> first
    | contradiction
    | rfl

theorem handlerOf_isSome_iff (os : Os σ) (name : String) :
    (handlerOf os name).isSome = true ↔ name ∈ fileOperations := by
  unfold handlerOf fileOperations
  split_ifs <;> simp_all

theorem handlerOf_GetLastError (os : Os σ) : handlerOf os "GetLastError" = none := by
  unfold handlerOf
  simp

theorem runCalls_append (os : Os σ) (cs ds : List Call) (h : Handler) (s : σ) :
    runCalls os (cs ++ ds) h s = runCalls os ds (runCalls os cs h s).1 (runCalls os cs h s).2 := by
  induction cs generalizing h s with
  | nil => rfl
  | cons c cs ih => simp [runCalls, ih]

theorem runCalls_take_succ (os : Os σ) (cs : List Call) (c : Call) (n : Nat) (h : Handler)
    (s : σ) (hc : cs.get? n = some c) :
    runCalls os (cs.take (n + 1)) h s =
      ((Execute os c.name c.arguments (runCalls os (cs.take n) h s).1
          (runCalls os (cs.take n) h s).2).handler,
       (Execute os c.name c.arguments (runCalls os (cs.take n) h s).1
          (runCalls os (cs.take n) h s).2).os) := by
  have : cs.take (n + 1) = cs.take n ++ [c] := by
    rw [List.take_succ]
    simp [List.get?_eq_getElem?] at hc
    simp [hc]
  rw [this, runCalls_append]
  rfl

theorem runCalls_take_of_none (os : Os σ) (cs : List Call) (n : Nat) (h : Handler)
    (s : σ) (hc : cs.get? n = none) :
    runCalls os (cs.take (n + 1)) h s = runCalls os (cs.take n) h s := by
  have hlen : cs.length ≤ n := by simpa [List.get?_eq_getElem?] using hc
  rw [List.take_of_length_le hlen, List.take_of_length_le (Nat.le_succ_of_le hlen)]

/-- The register holds what the specification says, before every call of a sequence. -/
theorem register_eq_registerSpec (os : Os σ) (cs : List Call) (s : σ) (n : Nat) :
    (runCalls os (cs.take n) Handler.new s).1.lastError = registerSpec os cs s n := by
  induction n with
  | zero => simp [runCalls, registerSpec, Handler.new]
  | succ n ih =>
    unfold registerSpec
    cases hc : cs.get? n with
    | none =>
      rw [runCalls_take_of_none os cs n _ _ hc]
      simpa using ih
    | some c =>
      rw [runCalls_take_succ os cs c n _ _ hc]
      cases hf : handlerOf os c.name with
      | none =>
        rw [Execute_of_handlerOf_none os _ _ _ _ hf]
        simp only [Option.some_bind, producedCode, hf, Option.map_none']
        rw [← ih]
        split_ifs <;> rfl
      | some f =>
        rw [Execute_of_handlerOf os _ _ _ _ f hf]
        simp [producedCode, hf]

theorem handlerOf_none_of_not_mem (os : Os σ) (name : String)
    (hn : name ∉ fileOperations) : handlerOf os name = none := by
  cases hf : handlerOf os name with
  | none => rfl
  | some f => exact absurd ((handlerOf_isSome_iff os name).1 (by simp [hf])) hn

theorem registerSpec_succ_of_not_mem (os : Os σ) (cs : List Call) (s : σ) (n : Nat)
    (h : ∀ c, cs.get? n = some c → c.name ∉ fileOperations) :
    registerSpec os cs s (n + 1) = registerSpec os cs s n := by
  conv_lhs => unfold registerSpec
  cases hc : cs.get? n with
  | none => rfl
  | some c => simp [producedCode, handlerOf_none_of_not_mem os c.name (h c hc)]

theorem registerSpec_succ_of_handlerOf (os : Os σ) (cs : List Call) (s : σ) (n : Nat)
    (c : Call) (f : List CefV8Value → σ → Outcome σ) (hc : cs.get? n = some c)
    (hf : handlerOf os c.name = some f) :
    registerSpec os cs s (n + 1) =
      (f c.arguments (runCalls os (cs.take n) Handler.new s).2).code := by
  conv_lhs => unfold registerSpec
  rw [hc]
  simp [producedCode, hf]

theorem registerSpec_stable (os : Os σ) (cs : List Call) (s : σ) (i j : Nat) (hij : i ≤ j)
    (h : ∀ k c, i ≤ k → k < j → cs.get? k = some c → c.name ∉ fileOperations) :
    registerSpec os cs s j = registerSpec os cs s i := by
  induction j with
  | zero =>
    have : i = 0 := by omega
    rw [this]
  | succ k ih =>
    rcases Nat.eq_or_lt_of_le hij with heq | hlt
    · rw [heq]
    · have hik : i ≤ k := by omega
      rw [registerSpec_succ_of_not_mem os cs s k (fun c hc => h k c hik (by omega) hc)]
      exact ih hik (fun k' c h1 h2 hc => h k' c h1 (by omega) hc)

theorem resultAt_GetLastError (os : Os σ) (cs : List Call) (s : σ) (n : Nat)
    (arguments : List CefV8Value) (hc : cs.get? n = some ⟨"GetLastError", arguments⟩) :
    resultAt os cs s n =
      some ⟨true, some (RetVal.CreateInt (registerSpec os cs s n)),
        ⟨registerSpec os cs s n⟩, (runCalls os (cs.take n) Handler.new s).2⟩ := by
  unfold resultAt
  rw [hc]
  simp only [Option.map_some']
  rw [Execute_of_handlerOf_none os _ _ _ _ (handlerOf_GetLastError os)]
  simp [← register_eq_registerSpec]

theorem resultAt_of_not_mem (os : Os σ) (cs : List Call) (s : σ) (n : Nat) (c : Call)
    (hc : cs.get? n = some c) (hn : c.name ∉ fileOperations) :
    (resultAt os cs s n).map (fun r => r.handler.lastError) =
      some (registerSpec os cs s n) := by
  unfold resultAt
  rw [hc]
  simp only [Option.map_some']
  rw [Execute_of_handlerOf_none os _ _ _ _ (handlerOf_none_of_not_mem os c.name hn)]
  split_ifs <;> simp [register_eq_registerSpec]

/-- Claim C3. On a freshly constructed handler and for every sequence of calls: before each
call the register holds what the specification describes; a
`GetLastError` call is handled and returns the register as the specification describes it
(`registerSpec`: the code produced by the most recent earlier filesystem operation, 0 when
there is none); a call whose name is not a filesystem operation leaves the register as it
was; after a filesystem operation the register is the code its handler function returned;
and two `GetLastError` calls with no filesystem operation between them return the same
value. -/
theorem C3_last_error_register (os : Os σ) (s : σ) (cs : List Call) :
    (∀ n, (runCalls os (cs.take n) Handler.new s).1.lastError = registerSpec os cs s n) ∧
    (∀ n arguments, cs.get? n = some ⟨"GetLastError", arguments⟩ →
      (resultAt os cs s n).map (fun r => (r.handled, r.retval)) =
        some (true, some (RetVal.CreateInt (registerSpec os cs s n)))) ∧
    (∀ n c, cs.get? n = some c → c.name ∉ fileOperations →
      registerSpec os cs s (n + 1) = registerSpec os cs s n ∧
      (resultAt os cs s n).map (fun r => r.handler.lastError) =
        some (registerSpec os cs s n)) ∧
    (∀ n c f, cs.get? n = some c → handlerOf os c.name = some f →
      registerSpec os cs s (n + 1) =
        (f c.arguments (runCalls os (cs.take n) Handler.new s).2).code) ∧
    (∀ i j ai aj, i ≤ j → cs.get? i = some ⟨"GetLastError", ai⟩ →
      cs.get? j = some ⟨"GetLastError", aj⟩ →
      (∀ k c, i ≤ k → k < j → cs.get? k = some c → c.name ∉ fileOperations) →
      (resultAt os cs s i).map (fun r => r.retval) =
        (resultAt os cs s j).map (fun r => r.retval)) := by
  refine ⟨register_eq_registerSpec os cs s, ?_, ?_, ?_, ?_⟩
  · intro n arguments hc
    rw [resultAt_GetLastError os cs s n arguments hc]
    rfl
  · intro n c hc hn
    refine ⟨registerSpec_succ_of_not_mem os cs s n (fun c' hc' => ?_),
      resultAt_of_not_mem os cs s n c hc hn⟩
    rw [hc] at hc'
    cases hc'
    exact hn
  · intro n c f hc hf
    exact registerSpec_succ_of_handlerOf os cs s n c f hc hf
  · intro i j ai aj hij hi hj hbetween
    rw [resultAt_GetLastError os cs s i ai hi, resultAt_GetLastError os cs s j aj hj,
      registerSpec_stable os cs s i j hij hbetween]
    rfl

end Dispatch

/-- Witness for C3: in the sample session the call at position 3 is a `GetLastError`; it is
handled and returns the register, which holds the code 2 of the ill-formed read at
position 0. -/
theorem C3_last_error_register_witness :
    (resultAt diskOs sampleCalls Disk.empty 3).map (fun r => (r.handled, r.retval)) =
      some (true, some (RetVal.CreateInt (registerSpec diskOs sampleCalls Disk.empty 3))) ∧
    registerSpec diskOs sampleCalls Disk.empty 3 = 2 :=
  ⟨(C3_last_error_register diskOs Disk.empty sampleCalls).2.1 3 [] (by decide), by decide⟩

/-! ## Which names are handled, and the range of the codes -/

section Range

variable {σ : Type}

theorem Execute_handled_iff (os : Os σ) (name : String) (arguments : List CefV8Value)
    (h : Handler) (s : σ) :
    (Execute os name arguments h s).handled = true ↔
      name ∈ fileOperations ∨ name = "GetLastError" := by
  cases hf : handlerOf os name with
  | some f =>
    rw [Execute_of_handlerOf os name arguments h s f hf]
    have := (handlerOf_isSome_iff os name).1 (by simp [hf])
    simp [this]
  | none =>
    rw [Execute_of_handlerOf_none os name arguments h s hf]
    have hn : name ∉ fileOperations := fun hm => by
      have := (handlerOf_isSome_iff os name).2 hm
      simp [hf] at this
    split_ifs with hg <;> simp [hn, hg]

/-- Claim C4. `Execute` returns `true` exactly when the name is one of the nine operation
names, compared character by character (so `readdir` is not handled), whatever the
arguments, the register and the operating system; and none of the eight handler functions
returns the initial `-1` of `errorCode`. -/
theorem C4_handled_iff_recognized (os : Os σ) (name : String) (arguments : List CefV8Value)
    (h : Handler) (s : σ) :
    ((Execute os name arguments h s).handled = true ↔
      name ∈ ["ShowOpenDialog", "ReadDir", "IsDirectory", "ReadFile", "WriteFile",
        "SetPosixPermissions", "GetFileModificationTime", "DeleteFileOrDirectory",
        "GetLastError"]) ∧
    (Execute os "readdir" arguments h s).handled = false ∧
    (ExecuteShowOpenDialog os arguments s).code ≠ -1 ∧
    (ExecuteReadDir os arguments s).code ≠ -1 ∧
    (ExecuteIsDirectory os arguments s).code ≠ -1 ∧
    (ExecuteReadFile os arguments s).code ≠ -1 ∧
    (ExecuteWriteFile os arguments s).code ≠ -1 ∧
    (ExecuteSetPosixPermissions os arguments s).code ≠ -1 ∧
    (ExecuteGetFileModificationTime os arguments s).code ≠ -1 ∧
    (ExecuteDeleteFileOrDirectory os arguments s).code ≠ -1 := by
  refine ⟨?_, ?_, ?_, ?_, ?_, ?_, ?_, ?_, ?_, ?_⟩
  · rw [Execute_handled_iff]
    simp only [fileOperations, List.mem_cons, List.mem_singleton, List.not_mem_nil, or_false]
    tauto
  · rfl
  · have := ExecuteShowOpenDialog_range os arguments s; omega
  · have := ExecuteReadDir_range os arguments s; omega
  · have := ExecuteIsDirectory_range os arguments s; omega
  · have := ExecuteReadFile_range os arguments s; omega
  · have := ExecuteWriteFile_range os arguments s; omega
  · have := ExecuteSetPosixPermissions_range os arguments s; omega
  · have := ExecuteGetFileModificationTime_range os arguments s; omega
  · have := ExecuteDeleteFileOrDirectory_range os arguments s; omega

/-- The register stays between 0 and 7 along every sequence of calls. -/
theorem runCalls_range (os : Os σ) (cs : List Call) (h : Handler) (s : σ)
    (hh : 0 ≤ h.lastError ∧ h.lastError ≤ 7) :
    0 ≤ (runCalls os cs h s).1.lastError ∧ (runCalls os cs h s).1.lastError ≤ 7 := by
  induction cs generalizing h s with
  | nil => exact hh
  | cons c cs ih =>
    unfold runCalls
    apply ih
    cases hf : handlerOf os c.name with
    | some f =>
      rw [Execute_of_handlerOf os _ _ _ _ f hf]
      exact handlerOf_range os c.name f hf c.arguments s
    | none =>
      rw [Execute_of_handlerOf_none os _ _ _ _ hf]
      split_ifs <;> exact hh

/-- Claim C10. For every operating system, argument list and call sequence: each of the
eight handler functions returns a code between 0 and 7; the register of a freshly
constructed handler starts at 0, lies between 0 and 7 after any sequence of calls and after
one more call of any name, and so never holds `ERR_NOT_FILE` (8) or `ERR_NOT_DIRECTORY`
(9). -/
theorem C10_codes_within_0_to_7 (os : Os σ) (name : String) (arguments : List CefV8Value)
    (cs : List Call) (s : σ) :
    ((0 ≤ (ExecuteShowOpenDialog os arguments s).code ∧
        (ExecuteShowOpenDialog os arguments s).code ≤ 7) ∧
      (0 ≤ (ExecuteReadDir os arguments s).code ∧ (ExecuteReadDir os arguments s).code ≤ 7) ∧
      (0 ≤ (ExecuteIsDirectory os arguments s).code ∧
        (ExecuteIsDirectory os arguments s).code ≤ 7) ∧
      (0 ≤ (ExecuteReadFile os arguments s).code ∧
        (ExecuteReadFile os arguments s).code ≤ 7) ∧
      (0 ≤ (ExecuteWriteFile os arguments s).code ∧
        (ExecuteWriteFile os arguments s).code ≤ 7) ∧
      (0 ≤ (ExecuteSetPosixPermissions os arguments s).code ∧
        (ExecuteSetPosixPermissions os arguments s).code ≤ 7) ∧
      (0 ≤ (ExecuteGetFileModificationTime os arguments s).code ∧
        (ExecuteGetFileModificationTime os arguments s).code ≤ 7) ∧
      (0 ≤ (ExecuteDeleteFileOrDirectory os arguments s).code ∧
        (ExecuteDeleteFileOrDirectory os arguments s).code ≤ 7)) ∧
    (0 ≤ (Execute os name arguments (runCalls os cs Handler.new s).1
          (runCalls os cs Handler.new s).2).handler.lastError ∧
      (Execute os name arguments (runCalls os cs Handler.new s).1
          (runCalls os cs Handler.new s).2).handler.lastError ≤ 7) ∧
    (0 ≤ (runCalls os cs Handler.new s).1.lastError ∧
      (runCalls os cs Handler.new s).1.lastError ≤ 7) ∧
    (runCalls os cs Handler.new s).1.lastError ≠ ERR_NOT_FILE ∧
    (runCalls os cs Handler.new s).1.lastError ≠ ERR_NOT_DIRECTORY ∧
    Handler.new.lastError = 0 := by
  have hnew : 0 ≤ Handler.new.lastError ∧ Handler.new.lastError ≤ 7 := by decide
  have hreg := runCalls_range os cs Handler.new s hnew
  have hstep := runCalls_range os (cs ++ [⟨name, arguments⟩]) Handler.new s hnew
  rw [runCalls_append] at hstep
  refine ⟨⟨ExecuteShowOpenDialog_range os arguments s, ExecuteReadDir_range os arguments s,
    ExecuteIsDirectory_range os arguments s, ExecuteReadFile_range os arguments s,
    ExecuteWriteFile_range os arguments s, ExecuteSetPosixPermissions_range os arguments s,
    ExecuteGetFileModificationTime_range os arguments s,
    ExecuteDeleteFileOrDirectory_range os arguments s⟩, hstep, hreg, ?_, ?_, rfl⟩
  · have : ERR_NOT_FILE = 8 := rfl
    omega
  · have : ERR_NOT_DIRECTORY = 9 := rfl
    omega

end Range

/-! ## The listing of a directory -/

section Listing

variable {σ : Type}

theorem intercalate_go_append (acc sep x : String) (l : List String) :
    String.intercalate.go acc sep (l ++ [x]) = String.intercalate.go acc sep l ++ sep ++ x := by
  induction l generalizing acc with
  | nil => simp [String.intercalate.go]
  | cons a l ih => simp [String.intercalate.go, ih]

theorem intercalate_nil (sep : String) : sep.intercalate [] = "" := rfl

theorem intercalate_append_singleton (sep x : String) (l : List String) :
    sep.intercalate (l ++ [x]) = if l.isEmpty then x else sep.intercalate l ++ sep ++ x := by
  cases l with
  | nil => simp [String.intercalate, String.intercalate.go]
  | cons a l => simp [String.intercalate, intercalate_go_append]

/-- The loop invariant of `ExecuteReadDir`: with the entries shown so far in `result`, the
loop leaves the literal of those and of the remaining listed entries, still open. -/
theorem readDirLoop_result (os : Os σ) (cFileName : String) (pending : List String)
    (shown : List String) (s : σ) :
    (readDirLoop os cFileName pending
        ("[" ++ ",".intercalate (shown.map (fun n => "\"" ++ n ++ "\""))) (!shown.isEmpty) s).1 =
      "[" ++ ",".intercalate
        ((shown ++ (listed (cFileName :: pending)).map WStringToString).map
          (fun n => "\"" ++ n ++ "\"")) := by
  induction pending generalizing cFileName shown s with
  | nil =>
    unfold readDirLoop
    by_cases h : cFileName = "." ∨ cFileName = ".."
    · have : listed [cFileName] = [] := by
        simp only [listed, List.filter_eq_nil_iff, List.mem_singleton]
        intro a ha
        subst ha
        simp only [decide_eq_true_eq]
        tauto
      simp [h, this]
    · have : listed [cFileName] = [cFileName] := by
        simp only [listed, List.filter_eq_self, List.mem_singleton]
        intro a ha
        subst ha
        simp only [decide_eq_true_eq]
        tauto
      simp only [h, this, if_false, List.map_cons, List.map_nil, List.map_append]
      rw [intercalate_append_singleton]
      cases shown <;> simp [String.append_assoc, intercalate_nil]
  | cons next later ih =>
    unfold readDirLoop
    by_cases h : cFileName = "." ∨ cFileName = ".."
    · have : listed (cFileName :: next :: later) = listed (next :: later) := by
        simp only [listed]
        rw [List.filter_cons_of_neg]
        simp only [decide_eq_true_eq]
        tauto
      simp only [h, this, if_true]
      exact ih next shown _
    · have : listed (cFileName :: next :: later) = cFileName :: listed (next :: later) := by
        simp only [listed]
        rw [List.filter_cons_of_pos]
        simp only [decide_eq_true_eq]
        tauto
      simp only [h, this, if_false]
      have key : (if (!shown.isEmpty) = true then
            "[" ++ ",".intercalate (shown.map (fun n => "\"" ++ n ++ "\"")) ++ ","
          else "[" ++ ",".intercalate (shown.map (fun n => "\"" ++ n ++ "\"")))
            ++ ("\"" ++ WStringToString cFileName ++ "\"") =
          "[" ++ ",".intercalate
            ((shown ++ [WStringToString cFileName]).map (fun n => "\"" ++ n ++ "\"")) := by
        rw [List.map_append, List.map_cons, List.map_nil, intercalate_append_singleton]
        cases shown <;> simp [String.append_assoc, intercalate_nil]
      rw [key]
      have ht : true = !(shown ++ [WStringToString cFileName]).isEmpty := by simp
      rw [ht, ih next (shown ++ [WStringToString cFileName]) _]
      simp

theorem narrow_of_lt (c : Char) (h : c.toNat < 256) : narrow c = c := by
  unfold narrow
  rw [Nat.mod_eq_of_lt h]
  exact Char.ofNat_toNat c

theorem WStringToString_of_bytes (name : String) (h : ∀ c ∈ name.data, c.toNat < 256) :
    WStringToString name = name := by
  unfold WStringToString
  have : name.data.map narrow = name.data := by
    conv_rhs => rw [← List.map_id name.data]
    exact List.map_congr_left (fun c hc => narrow_of_lt c (h c hc))
  rw [this]

theorem listed_subset (names : List String) : ∀ n ∈ listed names, n ∈ names := by
  intro n hn
  exact (List.mem_filter.1 hn).1

/-- Claim C5, amended. When `FindFirstFile` succeeds, `ReadDir` returns `NO_ERROR` and the
array literal of the enumerated names other than `.` and `..`, in enumeration order, each
converted by `WStringToString` (every 16-bit code unit cut to its low 8 bits).  Names whose
code units are all below 256 appear unchanged; `.` and `..` are never among the listed
entries; an enumeration of only `.` and `..` gives `[]`. -/
theorem C5_ReadDir_format (os : Os σ) (a0 : CefV8Value) (s s1 : σ) (first : String)
    (pending : List String) (h0 : a0.IsString = true)
    (hfind : os.FindFirstFile (c_str (StringToWString (FixFilename a0.GetStringValue ++ "\\*"))) s
      = (some (first, pending), s1)) :
    (ExecuteReadDir os [a0] s).code = NO_ERROR ∧
    (ExecuteReadDir os [a0] s).retval =
      some (RetVal.CreateString
        (arrayLiteral ((listed (first :: pending)).map WStringToString))) ∧
    ((∀ n ∈ first :: pending, ∀ c ∈ n.data, c.toNat < 256) →
      (ExecuteReadDir os [a0] s).retval =
        some (RetVal.CreateString (arrayLiteral (listed (first :: pending))))) ∧
    "." ∉ listed (first :: pending) ∧ ".." ∉ listed (first :: pending) ∧
    ((∀ n ∈ first :: pending, n = "." ∨ n = "..") →
      (ExecuteReadDir os [a0] s).retval = some (RetVal.CreateString "[]")) := by
  have hloop := readDirLoop_result os first pending [] s1
  simp only [List.map_nil, intercalate_nil, List.isEmpty_nil, Bool.not_true, List.nil_append,
    String.append_empty] at hloop
  have hret : (ExecuteReadDir os [a0] s).retval =
      some (RetVal.CreateString
        (arrayLiteral ((listed (first :: pending)).map WStringToString))) := by
    simp only [ExecuteReadDir, h0, hfind, arrayLiteral]
    simp [hloop]
  refine ⟨?_, hret, ?_, ?_, ?_, ?_⟩
  · simp [ExecuteReadDir, h0, hfind]
  · intro hbytes
    rw [hret]
    have : (listed (first :: pending)).map WStringToString = listed (first :: pending) := by
      conv_rhs => rw [← List.map_id (listed (first :: pending))]
      exact List.map_congr_left
        (fun n hn => WStringToString_of_bytes n (hbytes n (listed_subset _ n hn)))
    rw [this]
  · simp [listed]
  · simp [listed]
  · intro hall
    rw [hret]
    have : listed (first :: pending) = [] := by
      simp only [listed, List.filter_eq_nil_iff]
      intro n hn
      have := hall n hn
      simp only [decide_eq_true_eq]
      tauto
    rw [this]
    rfl

end Listing

/-- Witness for C5: the sample directory `d` lists as `["a.txt","b"]`. -/
theorem C5_ReadDir_format_witness :
    (ExecuteReadDir diskOs [ofString "d"] sampleDisk).retval =
      some (RetVal.CreateString
        (arrayLiteral ((listed [".", "..", "a.txt", "b"]).map WStringToString))) ∧
    arrayLiteral ((listed [".", "..", "a.txt", "b"]).map WStringToString) =
      "[\"a.txt\",\"b\"]" :=
  ⟨(C5_ReadDir_format diskOs (ofString "d") sampleDisk sampleDisk.tick "." ["..", "a.txt", "b"]
      (by decide) (by decide)).2.1, by decide⟩

/-- Counterexample to C5 as stated: a directory whose enumeration yields `.`, `..` and the
name U+4E2D.  `ReadDir` returns `NO_ERROR` and `["-"]` (0x2D is the low byte of 0x4E2D),
not the literal of the names. -/
theorem C5_ReadDir_keeps_low_bytes_only :
    diskOs.FindFirstFile "d\\*" wideNameDisk =
      (some (".", ["..", "\u4E2D"]), wideNameDisk.tick) ∧
    (ExecuteReadDir diskOs [ofString "d"] wideNameDisk).code = NO_ERROR ∧
    (ExecuteReadDir diskOs [ofString "d"] wideNameDisk).retval =
      some (RetVal.CreateString "[\"-\"]") ∧
    (ExecuteReadDir diskOs [ofString "d"] wideNameDisk).retval ≠
      some (RetVal.CreateString (arrayLiteral (listed [".", "..", "\u4E2D"]))) := by
  decide


/-! ## Encodings, read failures and the translation tables -/

section Failures

variable {σ : Type}

/-- Claim C6. With string arguments and an encoding other than exactly `utf8`, `ReadFile`
and `WriteFile` return `ERR_UNSUPPORTED_ENCODING`, assign no value and leave the state of
every operating system as it was: no host call has been made. -/
theorem C6_unsupported_encoding (os : Os σ) (path contents encoding : CefV8Value) (s : σ)
    (hpath : path.IsString = true) (hcontents : contents.IsString = true)
    (hencoding : encoding.IsString = true) (hne : encoding.GetStringValue ≠ "utf8") :
    ExecuteReadFile os [path, encoding] s = ⟨ERR_UNSUPPORTED_ENCODING, none, s⟩ ∧
    ExecuteWriteFile os [path, contents, encoding] s = ⟨ERR_UNSUPPORTED_ENCODING, none, s⟩ := by
  constructor
  · simp [ExecuteReadFile, hpath, hencoding, hne]
  · simp [ExecuteWriteFile, hpath, hcontents, hencoding, hne]

/-- Witness for C6: the encoding `UTF8` on the sample disk. -/
theorem C6_unsupported_encoding_witness :
    ExecuteReadFile diskOs [ofString "f", ofString "UTF8"] sampleDisk =
      ⟨ERR_UNSUPPORTED_ENCODING, none, sampleDisk⟩ ∧
    ExecuteWriteFile diskOs [ofString "f", ofString "x", ofString "UTF8"] sampleDisk =
      ⟨ERR_UNSUPPORTED_ENCODING, none, sampleDisk⟩ :=
  C6_unsupported_encoding diskOs (ofString "f") (ofString "x") (ofString "UTF8") sampleDisk
    (by decide) (by decide) (by decide) (by decide)

/-- Claim C7. For a string path and the encoding `utf8`: when the attribute query fails and
the last error is file-not-found or path-not-found, `ReadFile` returns `ERR_NOT_FOUND`;
when the query succeeds with the directory bit set, it returns `ERR_CANT_READ` and the
operating system is in the state the query left (nothing was opened).  No value is
assigned in either case. -/
theorem C7_ReadFile_failure_codes (os : Os σ) (path encoding : CefV8Value) (s : σ)
    (hpath : path.IsString = true) (hencoding : encoding.IsString = true)
    (hutf8 : encoding.GetStringValue = "utf8") :
    (∀ s1 e s2,
      os.GetFileAttributes (c_str (StringToWString (FixFilename path.GetStringValue))) s =
        (INVALID_FILE_ATTRIBUTES, s1) →
      os.GetLastError s1 = (e, s2) →
      dwordToInt e = ERROR_FILE_NOT_FOUND ∨ dwordToInt e = ERROR_PATH_NOT_FOUND →
      ExecuteReadFile os [path, encoding] s = ⟨ERR_NOT_FOUND, none, s2⟩) ∧
    (∀ dwAttr s1,
      os.GetFileAttributes (c_str (StringToWString (FixFilename path.GetStringValue))) s =
        (dwAttr, s1) →
      dwAttr ≠ INVALID_FILE_ATTRIBUTES →
      dwAttr &&& FILE_ATTRIBUTE_DIRECTORY ≠ 0 →
      ExecuteReadFile os [path, encoding] s = ⟨ERR_CANT_READ, none, s1⟩) := by
  constructor
  · intro s1 e s2 hattr herr hcode
    have hc : ConvertWinErrorCode (dwordToInt e) true = ERR_NOT_FOUND := by
      rcases hcode with h | h <;> rw [h] <;> rfl
    simp [ExecuteReadFile, hpath, hencoding, hutf8, hattr, herr, hc]
  · intro dwAttr s1 hattr hvalid hdir
    have hv : ¬ INVALID_FILE_ATTRIBUTES = dwAttr := fun h => hvalid h.symm
    simp [ExecuteReadFile, hpath, hencoding, hutf8, hattr, hv, hdir]

/-- Witness for C7: a missing path and a directory on the sample disk. -/
theorem C7_ReadFile_failure_codes_witness :
    ExecuteReadFile diskOs [ofString "missing", ofString "utf8"] sampleDisk =
      ⟨ERR_NOT_FOUND, none, ((sampleDisk.fail 2).tick)⟩ ∧
    ExecuteReadFile diskOs [ofString "d", ofString "utf8"] sampleDisk =
      ⟨ERR_CANT_READ, none, sampleDisk.tick⟩ :=
  ⟨(C7_ReadFile_failure_codes diskOs (ofString "missing") (ofString "utf8") sampleDisk
      (by decide) (by decide) (by decide)).1 (sampleDisk.fail 2) 2 ((sampleDisk.fail 2).tick)
      (by decide) (by decide) (by decide),
   (C7_ReadFile_failure_codes diskOs (ofString "d") (ofString "utf8") sampleDisk
      (by decide) (by decide) (by decide)).2 0x10 sampleDisk.tick
      (by decide) (by decide) (by decide)⟩

/-- The handler of `WriteFile` never returns `ERR_CANT_READ`. -/
theorem ExecuteWriteFile_ne_cant_read (os : Os σ) (arguments : List CefV8Value) (s : σ) :
    (ExecuteWriteFile os arguments s).code ≠ ERR_CANT_READ := by
  have hconv : ∀ e, ConvertWinErrorCode e false ≠ ERR_CANT_READ := by
    intro e
    unfold ConvertWinErrorCode
    split_ifs <;> first | contradiction | decide
  unfold ExecuteWriteFile
  repeat' (first | split | dsimp only)
  all_goals first
    | exact hconv _
    | decide

/-- Claim C8. The table of `ConvertWinErrorCode`: 0 gives `NO_ERROR`; path-not-found and
file-not-found give `ERR_NOT_FOUND`; write-protect gives `ERR_CANT_WRITE`; disk-full
(`ERROR_HANDLE_DISK_FULL`) gives `ERR_OUT_OF_SPACE`; access-denied gives `ERR_CANT_READ`
when reading and `ERR_CANT_WRITE` otherwise; every other code gives `ERR_UNKNOWN`; the flag
matters for access-denied only.  `WriteFile` translates both of its failures (open, write)
with the flag `false`, and so never returns `ERR_CANT_READ`. -/
theorem C8_ConvertWinErrorCode_table (os : Os σ) (path contents encoding : CefV8Value)
    (s : σ) (c : Int) (isReading : Bool) :
    ConvertWinErrorCode 0 isReading = NO_ERROR ∧
    ConvertWinErrorCode ERROR_PATH_NOT_FOUND isReading = ERR_NOT_FOUND ∧
    ConvertWinErrorCode ERROR_FILE_NOT_FOUND isReading = ERR_NOT_FOUND ∧
    ConvertWinErrorCode ERROR_WRITE_PROTECT isReading = ERR_CANT_WRITE ∧
    ConvertWinErrorCode ERROR_HANDLE_DISK_FULL isReading = ERR_OUT_OF_SPACE ∧
    ConvertWinErrorCode ERROR_ACCESS_DENIED true = ERR_CANT_READ ∧
    ConvertWinErrorCode ERROR_ACCESS_DENIED false = ERR_CANT_WRITE ∧
    (c ≠ 0 → c ≠ ERROR_PATH_NOT_FOUND → c ≠ ERROR_FILE_NOT_FOUND → c ≠ ERROR_ACCESS_DENIED →
      c ≠ ERROR_WRITE_PROTECT → c ≠ ERROR_HANDLE_DISK_FULL →
      ConvertWinErrorCode c isReading = ERR_UNKNOWN) ∧
    (c ≠ ERROR_ACCESS_DENIED → ConvertWinErrorCode c true = ConvertWinErrorCode c false) ∧
    (path.IsString = true → contents.IsString = true → encoding.IsString = true →
      encoding.GetStringValue = "utf8" →
      (∀ s1 e s2,
        os.CreateFile (c_str (StringToWString (FixFilename path.GetStringValue)))
          Access.GENERIC_WRITE Disposition.CREATE_ALWAYS s = (none, s1) →
        os.GetLastError s1 = (e, s2) →
        ExecuteWriteFile os [path, contents, encoding] s =
          ⟨ConvertWinErrorCode (dwordToInt e) false, none, s2⟩) ∧
      (∀ hFile s1 s2 e s3,
        os.CreateFile (c_str (StringToWString (FixFilename path.GetStringValue)))
          Access.GENERIC_WRITE Disposition.CREATE_ALWAYS s = (some hFile, s1) →
        os.WriteFile hFile contents.GetStringValue s1 = (false, s2) →
        os.GetLastError s2 = (e, s3) →
        ExecuteWriteFile os [path, contents, encoding] s =
          ⟨ConvertWinErrorCode (dwordToInt e) false, none, os.CloseHandle hFile s3⟩)) ∧
    (ExecuteWriteFile os [path, contents, encoding] s).code ≠ ERR_CANT_READ := by
  refine ⟨?_, ?_, ?_, ?_, ?_, rfl, rfl, ?_, ?_, ?_, ExecuteWriteFile_ne_cant_read os _ s⟩
  · cases isReading <;> rfl
  · cases isReading <;> rfl
  · cases isReading <;> rfl
  · cases isReading <;> rfl
  · cases isReading <;> rfl
  · intro h0 h1 h2 h3 h4 h5
    simp [ConvertWinErrorCode, NO_ERROR, h0, h1, h2, h3, h4, h5]
  · intro h
    simp [ConvertWinErrorCode, h]
  · intro hpath hcontents hencoding hutf8
    constructor
    · intro s1 e s2 hopen herr
      simp [ExecuteWriteFile, hpath, hcontents, hencoding, hutf8, hopen, herr]
    · intro hFile s1 s2 e s3 hopen hwrite herr
      simp [ExecuteWriteFile, hpath, hcontents, hencoding, hutf8, hopen, hwrite, herr]

/-- Witness for C8: code 112 is unknown under either flag, and writing to a directory of the
sample disk fails with access-denied, translated to `ERR_CANT_WRITE`. -/
theorem C8_ConvertWinErrorCode_table_witness :
    ConvertWinErrorCode 112 true = ERR_UNKNOWN ∧
    ConvertWinErrorCode 112 true = ConvertWinErrorCode 112 false ∧
    ExecuteWriteFile diskOs [ofString "d", ofString "x", ofString "utf8"] sampleDisk =
      ⟨ERR_CANT_WRITE, none, (sampleDisk.fail 5).tick⟩ :=
  ⟨(C8_ConvertWinErrorCode_table diskOs (ofString "d") (ofString "x") (ofString "utf8")
      sampleDisk 112 true).2.2.2.2.2.2.2.1
      (by decide) (by decide) (by decide) (by decide) (by decide) (by decide),
   (C8_ConvertWinErrorCode_table diskOs (ofString "d") (ofString "x") (ofString "utf8")
      sampleDisk 112 true).2.2.2.2.2.2.2.2.1 (by decide),
   ((C8_ConvertWinErrorCode_table diskOs (ofString "d") (ofString "x") (ofString "utf8")
      sampleDisk 112 true).2.2.2.2.2.2.2.2.2.1
      (by decide) (by decide) (by decide) (by decide)).1 (sampleDisk.fail 5) 5
      ((sampleDisk.fail 5).tick) (by decide) (by decide)⟩

/-- Counterexample to C9 as stated: 0 is neither `EINVAL` nor `ENOENT`, and
`ConvertErrnoCode` maps it to `NO_ERROR`, not to `ERR_UNKNOWN`. -/
theorem C9_ConvertErrnoCode_zero_is_NO_ERROR :
    (0 : Int) ≠ EINVAL ∧ (0 : Int) ≠ ENOENT ∧ ConvertErrnoCode 0 true = NO_ERROR ∧
    ConvertErrnoCode 0 true ≠ ERR_UNKNOWN ∧ ConvertErrnoCode 0 false ≠ ERR_UNKNOWN := by
  decide

/-- Claim C9, amended. `ConvertErrnoCode` maps `EINVAL` to `ERR_INVALID_PARAMS`, `ENOENT` to
`ERR_NOT_FOUND`, 0 to `NO_ERROR` and every other code to `ERR_UNKNOWN`, whatever the
flag. -/
theorem C9_ConvertErrnoCode_table (c : Int) (isReading : Bool) :
    ConvertErrnoCode EINVAL isReading = ERR_INVALID_PARAMS ∧
    ConvertErrnoCode ENOENT isReading = ERR_NOT_FOUND ∧
    ConvertErrnoCode 0 isReading = NO_ERROR ∧
    (c ≠ 0 → c ≠ EINVAL → c ≠ ENOENT → ConvertErrnoCode c isReading = ERR_UNKNOWN) ∧
    ConvertErrnoCode c true = ConvertErrnoCode c false := by
  refine ⟨rfl, rfl, rfl, ?_, rfl⟩
  intro h0 h1 h2
  simp [ConvertErrnoCode, NO_ERROR, h0, h1, h2]

/-- Witness for C9: code 13 (`EACCES`) is unknown. -/
theorem C9_ConvertErrnoCode_table_witness :
    ConvertErrnoCode 13 true = ERR_UNKNOWN :=
  (C9_ConvertErrnoCode_table 13 true).2.2.2.1 (by decide) (by decide) (by decide)

end Failures

/-! ## The open dialog -/

/-- The `switch` of `EscapeJSONString` and the table agree on every character. -/
theorem escapeChar_eq (c : Char) : escapeChar c = escapeSpecChar c := by
  unfold escapeChar escapeSpecChar escapeTable
  split_ifs with h1 h2 h3 h4 h5 h6 h7 h8 h9
  · subst h1; rfl
  · subst h2; rfl
  · subst h3; rfl
  · subst h4; rfl
  · subst h5; rfl
  · subst h6; rfl
  · subst h7; rfl
  · subst h8; rfl
  · subst h9; rfl
  · have e1 : (c == Char.ofNat 7) = false := beq_eq_false_iff_ne.2 h1
    have e2 : (c == Char.ofNat 8) = false := beq_eq_false_iff_ne.2 h2
    have e3 : (c == Char.ofNat 12) = false := beq_eq_false_iff_ne.2 h3
    have e4 : (c == '\n') = false := beq_eq_false_iff_ne.2 h4
    have e5 : (c == '\r') = false := beq_eq_false_iff_ne.2 h5
    have e6 : (c == '\t') = false := beq_eq_false_iff_ne.2 h6
    have e7 : (c == Char.ofNat 11) = false := beq_eq_false_iff_ne.2 h7
    have e8 : (c == '"') = false := beq_eq_false_iff_ne.2 h8
    have e9 : (c == '\\') = false := beq_eq_false_iff_ne.2 h9
    simp only [List.lookup, e1, e2, e3, e4, e5, e6, e7, e8, e9]

/-- The appending loop builds the concatenation of the pieces. -/
theorem foldl_escape_data (f : Char → String) (l : List Char) (acc : String) :
    (l.foldl (fun result c => result ++ f c) acc).data = acc.data ++ l.flatMap (fun c => (f c).data) := by
  induction l generalizing acc with
  | nil => simp
  | cons c l ih => simp [ih, List.append_assoc]

/-- `EscapeJSONString` computes the escaped text of the specification. -/
theorem EscapeJSONString_eq_escapeSpec (str : String) : EscapeJSONString str = escapeSpec str := by
  apply String.ext
  unfold EscapeJSONString escapeSpec
  rw [foldl_escape_data]
  simp [escapeChar_eq]

/-- The piece for one character is a backslash and one more character, or one character
that is not a double quote. -/
theorem escapeChar_shape (c : Char) :
    (∃ x, (escapeChar c).data = ['\\', x]) ∨ (∃ y, y ≠ '"' ∧ (escapeChar c).data = [y]) := by
  generalize he : escapeChar c = e
  unfold escapeChar at he
  split_ifs at he with h1 h2 h3 h4 h5 h6 h7 h8 h9
  · exact Or.inl ⟨'a', by rw [← he]⟩
  · exact Or.inl ⟨'b', by rw [← he]⟩
  · exact Or.inl ⟨'f', by rw [← he]⟩
  · exact Or.inl ⟨'n', by rw [← he]⟩
  · exact Or.inl ⟨'r', by rw [← he]⟩
  · exact Or.inl ⟨'t', by rw [← he]⟩
  · exact Or.inl ⟨'v', by rw [← he]⟩
  · exact Or.inl ⟨'"', by rw [← he]⟩
  · exact Or.inr ⟨'/', by decide, by rw [← he]⟩
  · exact Or.inr ⟨c, h8, by rw [← he]; rfl⟩

theorem quotesEscaped_escape (l : List Char) (previous : Option Char) :
    quotesEscaped previous (l.flatMap (fun c => (escapeChar c).data)) = true := by
  induction l generalizing previous with
  | nil => rfl
  | cons c l ih =>
    rw [List.flatMap_cons]
    rcases escapeChar_shape c with ⟨x, hx⟩ | ⟨y, hy, hx⟩
    · rw [hx]
      simp [quotesEscaped, ih]
    · rw [hx]
      simp [quotesEscaped, ih, hy]

/-- In the output of `EscapeJSONString` every double quote comes right after a backslash. -/
theorem quotesEscaped_EscapeJSONString (str : String) :
    quotesEscaped none (EscapeJSONString str).data = true := by
  unfold EscapeJSONString
  rw [foldl_escape_data]
  exact quotesEscaped_escape str.data none

section Dialog

variable {σ : Type}

theorem length_pos_iff_ne_empty (s : String) : s.length > 0 ↔ s ≠ "" := by
  have hl : s.length = s.data.length := rfl
  rw [hl, gt_iff_lt, List.length_pos, ne_eq, ne_eq]
  constructor
  · intro h he
    exact h (by rw [he])
  · intro h he
    exact h (String.ext he)

theorem dialog_result_eq (selectedFilenames : String) :
    (if selectedFilenames.length > 0 then "[\"" ++ EscapeJSONString selectedFilenames ++ "\"]"
      else "[]") = dialogResultSpec selectedFilenames := by
  unfold dialogResultSpec
  rw [EscapeJSONString_eq_escapeSpec]
  by_cases h : selectedFilenames = ""
  · have : ¬ selectedFilenames.length > 0 := fun hp =>
      (length_pos_iff_ne_empty _).1 hp h
    rw [if_neg this, if_pos h]
  · rw [if_pos ((length_pos_iff_ne_empty _).2 h), if_neg h]

/-- With three string arguments in the last positions the handler returns `NO_ERROR` and the
dialog result of whatever `pickPath` left in `selectedFilenames`. -/
theorem ExecuteShowOpenDialog_result (os : Os σ) (a0 a1 a2 a3 a4 : CefV8Value) (s : σ)
    (h2 : a2.IsString = true) (h3 : a3.IsString = true) (h4 : a4.IsString = true) :
    (ExecuteShowOpenDialog os [a0, a1, a2, a3, a4] s).code = NO_ERROR ∧
    (ExecuteShowOpenDialog os [a0, a1, a2, a3, a4] s).retval =
      some (RetVal.CreateString (dialogResultSpec
        (pickPath os a0.GetBoolValue a1.GetBoolValue (StringToWString a2.GetStringValue)
          (StringToWString a3.GetStringValue) s).1)) := by
  simp only [ExecuteShowOpenDialog, h2, h3, h4, Bool.not_true, Bool.or_self, Bool.false_eq_true,
    if_false, dialog_result_eq]
  refine ⟨?_, ?_⟩ <;> first | rfl | trivial

theorem pickPath_file (os : Os σ) (multi : Bool) (wtitle initialPath : String) (s : σ) :
    (pickPath os multi false wtitle initialPath s).1 =
      match (os.GetOpenFileName (c_str initialPath) multi s).1 with
      | some szFile => WStringToString (c_str szFile)
      | none => "" := by
  unfold pickPath
  simp only [Bool.false_eq_true, if_false]
  split <;> simp_all

theorem pickPath_directory (os : Os σ) (multi : Bool) (wtitle initialPath : String) (s : σ) :
    (pickPath os multi true wtitle initialPath s).1 =
      if (os.SHBrowseForFolder (c_str wtitle) s).1 = true then
        match (os.SHGetPathFromIDList (os.SHBrowseForFolder (c_str wtitle) s).2).1 with
        | some szFile => WStringToString (c_str szFile)
        | none => ""
      else "" := by
  unfold pickPath
  simp only [if_true]
  repeat' (first | split | dsimp only)
  all_goals simp_all

theorem WStringToString_eq_empty_iff (p : String) : WStringToString p = "" ↔ p = "" := by
  unfold WStringToString
  constructor
  · intro h
    have hd : (String.mk (p.data.map narrow)).data = ("" : String).data := by rw [h]
    have : p.data = [] := List.map_eq_nil_iff.1 hd
    exact String.ext this
  · intro h
    rw [h]
    rfl

/-- Claim C11, amended. With strings in the last three positions (every well-typed list)
`ShowOpenDialog` returns `NO_ERROR`.  When the file or directory picker leaves the path `p`
in its buffer, the result is `dialogResultSpec` of `p` converted by `WStringToString` (every
16-bit code unit cut to its low 8 bits): `[]` for an empty `p`, otherwise the one-element
literal of the converted `p` with `\a \b \f \n \r \t \v` and the double quote replaced by
their backslash escapes, each backslash by a forward slash and the rest unchanged.  A path
whose code units are all below 256 is escaped as it stands.  A cancelled or failed picker
gives `[]`.  Every double quote of the escaped text follows a backslash, so the result is
`[]` or a literal with one element. -/
theorem C11_ShowOpenDialog_result_shape (os : Os σ) (a0 a1 a2 a3 a4 : CefV8Value) (s : σ)
    (h2 : a2.IsString = true) (h3 : a3.IsString = true) (h4 : a4.IsString = true) :
    (ExecuteShowOpenDialog os [a0, a1, a2, a3, a4] s).code = NO_ERROR ∧
    (∀ szFile s1, a1.GetBoolValue = false →
      os.GetOpenFileName (c_str (StringToWString a3.GetStringValue)) a0.GetBoolValue s =
        (some szFile, s1) →
      (ExecuteShowOpenDialog os [a0, a1, a2, a3, a4] s).retval =
        some (RetVal.CreateString (dialogResultSpec (WStringToString (c_str szFile))))) ∧
    (∀ s1, a1.GetBoolValue = false →
      os.GetOpenFileName (c_str (StringToWString a3.GetStringValue)) a0.GetBoolValue s =
        (none, s1) →
      (ExecuteShowOpenDialog os [a0, a1, a2, a3, a4] s).retval =
        some (RetVal.CreateString "[]")) ∧
    (∀ szFile s1 s2, a1.GetBoolValue = true →
      os.SHBrowseForFolder (c_str (StringToWString a2.GetStringValue)) s = (true, s1) →
      os.SHGetPathFromIDList s1 = (some szFile, s2) →
      (ExecuteShowOpenDialog os [a0, a1, a2, a3, a4] s).retval =
        some (RetVal.CreateString (dialogResultSpec (WStringToString (c_str szFile))))) ∧
    (∀ s1, a1.GetBoolValue = true →
      os.SHBrowseForFolder (c_str (StringToWString a2.GetStringValue)) s = (false, s1) →
      (ExecuteShowOpenDialog os [a0, a1, a2, a3, a4] s).retval =
        some (RetVal.CreateString "[]")) ∧
    (∀ s1 s2, a1.GetBoolValue = true →
      os.SHBrowseForFolder (c_str (StringToWString a2.GetStringValue)) s = (true, s1) →
      os.SHGetPathFromIDList s1 = (none, s2) →
      (ExecuteShowOpenDialog os [a0, a1, a2, a3, a4] s).retval =
        some (RetVal.CreateString "[]")) ∧
    (∀ p : String, dialogResultSpec (WStringToString p) =
      if p = "" then "[]" else "[\"" ++ escapeSpec (WStringToString p) ++ "\"]") ∧
    (∀ p : String, (∀ c ∈ p.data, c.toNat < 256) →
      dialogResultSpec (WStringToString p) = dialogResultSpec p) ∧
    (∀ p : String, quotesEscaped none (escapeSpec p).data = true) ∧
    ((ExecuteShowOpenDialog os [a0, a1, a2, a3, a4] s).retval =
        some (RetVal.CreateString "[]") ∨
      ∃ e : String, quotesEscaped none e.data = true ∧
        (ExecuteShowOpenDialog os [a0, a1, a2, a3, a4] s).retval =
          some (RetVal.CreateString ("[\"" ++ e ++ "\"]"))) := by
  obtain ⟨hcode, hret⟩ := ExecuteShowOpenDialog_result os a0 a1 a2 a3 a4 s h2 h3 h4
  have hempty : dialogResultSpec "" = "[]" := rfl
  refine ⟨hcode, ?_, ?_, ?_, ?_, ?_, ?_, ?_, ?_, ?_⟩
  · intro szFile s1 hfile hpick
    rw [hret, hfile, pickPath_file, hpick]
  · intro s1 hfile hpick
    rw [hret, hfile, pickPath_file, hpick, hempty]
  · intro szFile s1 s2 hdir hbrowse hpath
    rw [hret, hdir, pickPath_directory, hbrowse]
    simp only [if_true, hpath]
  · intro s1 hdir hbrowse
    rw [hret, hdir, pickPath_directory, hbrowse]
    simp only [Bool.false_eq_true, if_false, hempty]
  · intro s1 s2 hdir hbrowse hpath
    rw [hret, hdir, pickPath_directory, hbrowse]
    simp only [if_true, hpath, hempty]
  · intro p
    unfold dialogResultSpec
    by_cases h : p = ""
    · rw [if_pos h, if_pos ((WStringToString_eq_empty_iff p).2 h)]
    · rw [if_neg h, if_neg (fun he => h ((WStringToString_eq_empty_iff p).1 he))]
  · intro p hp
    rw [WStringToString_of_bytes p hp]
  · intro p
    rw [← EscapeJSONString_eq_escapeSpec]
    exact quotesEscaped_EscapeJSONString p
  · rw [hret]
    unfold dialogResultSpec
    split_ifs with h
    · exact Or.inl rfl
    · refine Or.inr ⟨escapeSpec _, ?_, rfl⟩
      rw [← EscapeJSONString_eq_escapeSpec]
      exact quotesEscaped_EscapeJSONString _

end Dialog

/-- Witness for C11: the file picker answers `C:\docs\a.txt`, the result is
`["C:/docs/a.txt"]`. -/
theorem C11_ShowOpenDialog_result_shape_witness :
    (ExecuteShowOpenDialog diskOs
        [ofBool false, ofBool false, ofString "Open", ofString "", ofString "txt"]
        plainPickDisk).retval =
      some (RetVal.CreateString (dialogResultSpec (WStringToString (c_str "C:\\docs\\a.txt")))) ∧
    dialogResultSpec (WStringToString (c_str "C:\\docs\\a.txt")) = "[\"C:/docs/a.txt\"]" :=
  ⟨(C11_ShowOpenDialog_result_shape diskOs (ofBool false) (ofBool false) (ofString "Open")
      (ofString "") (ofString "txt") plainPickDisk (by decide) (by decide) (by decide)).2.1
      "C:\\docs\\a.txt" plainPickDisk.tick (by decide) (by decide), by decide⟩

/-- Counterexample to C11 as stated: the picker answers a path that holds U+4E2D.  The
result holds `-` (0x2D, the low byte of 0x4E2D) in its place, so it is not the escaped
path. -/
theorem C11_wide_path_loses_high_bytes :
    wellTyped "ShowOpenDialog"
      [ofBool false, ofBool false, ofString "Open", ofString "", ofString "txt"] ∧
    diskOs.GetOpenFileName "" false widePickDisk =
      (some "C:\\docs\\\u4E2D.txt", widePickDisk.tick) ∧
    (ExecuteShowOpenDialog diskOs
        [ofBool false, ofBool false, ofString "Open", ofString "", ofString "txt"]
        widePickDisk).retval = some (RetVal.CreateString "[\"C:/docs/-.txt\"]") ∧
    dialogResultSpec "C:\\docs\\\u4E2D.txt" = "[\"C:/docs/\u4E2D.txt\"]" ∧
    (ExecuteShowOpenDialog diskOs
        [ofBool false, ofBool false, ofString "Open", ofString "", ofString "txt"]
        widePickDisk).retval ≠
      some (RetVal.CreateString (dialogResultSpec "C:\\docs\\\u4E2D.txt")) := by
  decide

/-! ## The trailing separator of `ExecuteGetFileModificationTime` -/

/-- For a non-empty path shorter than 2^32 the index `length - 1` is the last character. -/
theorem lastIndex_inBounds (pathStr : String) (hpos : 0 < pathStr.length)
    (hlen : pathStr.length < 2 ^ WORD_BITS) :
    lastIndex pathStr = pathStr.length - 1 ∧ indexInBounds pathStr (lastIndex pathStr) = true := by
  have h : lastIndex pathStr = pathStr.length - 1 := by
    unfold lastIndex
    have : pathStr.length + (2 ^ WORD_BITS - 1) = (pathStr.length - 1) + 2 ^ WORD_BITS := by
      have : 0 < 2 ^ WORD_BITS := Nat.two_pow_pos WORD_BITS
      omega
    rw [this, Nat.add_mod_right, Nat.mod_eq_of_lt (by omega)]
  refine ⟨h, ?_⟩
  unfold indexInBounds
  rw [h]
  simp only [decide_eq_true_eq]
  omega

/-- `FixFilename` keeps the length. -/
theorem FixFilename_length (filename : String) :
    (FixFilename filename).length = filename.length := by
  unfold FixFilename
  show (List.map _ filename.data).length = filename.data.length
  rw [List.length_map]

/-- Claim C12, the defect: the empty path is a well-typed argument of
`GetFileModificationTime`; the normalized path has length 0, the index `length - 1` is
4294967295 in `size_t` arithmetic and lies outside the string.  The handler does not reject
the argument: it goes on to the `_wstat` call. -/
theorem C12_empty_path_index_outside :
    wellTyped "GetFileModificationTime" [ofString ""] ∧
    (FixFilename (ofString "").GetStringValue).length = 0 ∧
    lastIndex (FixFilename (ofString "").GetStringValue) = 4294967295 ∧
    indexInBounds (FixFilename (ofString "").GetStringValue)
      (lastIndex (FixFilename (ofString "").GetStringValue)) = false ∧
    (ExecuteGetFileModificationTime diskOs [ofString ""] Disk.empty).code
      ≠ ERR_INVALID_PARAMS ∧
    (ExecuteGetFileModificationTime diskOs [ofString ""] Disk.empty).os.calls = 1 := by
  decide

end Brackets
